import Mathlib

/-!
Verification of the tiered decision-routing core of the Unit-76 game agent:
goal registry, situation classifier, decision router, model-client fallback
logic and the JSON plan-extraction pipeline, shallowly embedded from the
Python sources (`main_bot_enhanced.py`, `comprehensive_fo76_ai.py`,
`local_llm_module.py`, `local_llm_lightweight.py`, `llm_module.py`,
`input_emulator.py`).
-/

set_option maxHeartbeats 1000000

/-! ## String utilities (Python `str.lower`, `str.upper`, substring `in`) -/

/-- The opening-brace character, written numerically. -/
def lbrace : Char := Char.ofNat 123

/-- The closing-brace character, written numerically. -/
def rbrace : Char := Char.ofNat 125

/-- Does the list `l` start with the pattern `p`? -/
def startsWithL : List Char → List Char → Bool
  | [], _ => true
  | _ :: _, [] => false
  | a :: p, b :: l => a = b && startsWithL p l

/-- Does the list `l` contain `p` as a contiguous sublist?  Models Python
`p in l` on strings. -/
def hasSubL (p : List Char) : List Char → Bool
  | [] => startsWithL p []
  | c :: l => startsWithL p (c :: l) || hasSubL p l

/-- Python `pat in s` (substring containment). -/
def containsSub (s pat : String) : Bool := hasSubL pat.toList s.toList

/-- Python `s.lower()` (ASCII case folding suffices for this code base). -/
def lowerStr (s : String) : String := ⟨s.toList.map Char.toLower⟩

/-- Python `s.upper()`. -/
def upperStr (s : String) : String := ⟨s.toList.map Char.toUpper⟩

/-! ## Situation classifier: `FastDecisionMaker` of `main_bot_enhanced.py` -/

/-- A detected object as delivered by the perception adapter: only the label
matters to `check_instant_response`. -/
structure DetObj where
  label : String
  deriving DecidableEq

/-- The slice of `game_state` read by `FastDecisionMaker.check_instant_response`:
`detected_objects` and `health` (default 100). -/
structure GameState where
  detected_objects : List DetObj
  health : Int
  deriving DecidableEq

/-- A three-field action plan (`action`, `duration`, `reason`), the shape of
every entry of `FastDecisionMaker.survival_reflexes`. -/
structure Plan3 where
  action : String
  duration : ℚ
  reason : String
  deriving DecidableEq

/-- the `enemy_close_health_low` entry of `survival_reflexes`. -/
def reflex_enemy_close_health_low : Plan3 :=
  { action := "BACKWARD", duration := 3.0, reason := "retreat_survival" }

/-- the `enemy_detected_healthy` entry of `survival_reflexes`. -/
def reflex_enemy_detected_healthy : Plan3 :=
  { action := "VATS", duration := 0.1, reason := "engage_enemy" }

/-- the `loot_safe_nearby` entry of `survival_reflexes`. -/
def reflex_loot_safe_nearby : Plan3 :=
  { action := "INTERACT", duration := 0.5, reason := "collect_loot" }

/-- the `stuck_detected` entry of `survival_reflexes`. -/
def reflex_stuck_detected : Plan3 :=
  { action := "BACKWARD", duration := 1.0, reason := "unstuck_maneuver" }

/-- the `path_clear_exploring` entry of `survival_reflexes`. -/
def reflex_path_clear_exploring : Plan3 :=
  { action := "FORWARD", duration := 2.0, reason := "continue_exploration" }

/-- Whether some detected object's lowercased label contains `person`
(the hostile test of `check_instant_response`). -/
def has_enemy_in (gs : GameState) : Bool :=
  gs.detected_objects.any fun o => containsSub (lowerStr o.label) "person"

/-- Whether some detected object's lowercased label contains `container`. -/
def has_loot_in (gs : GameState) : Bool :=
  gs.detected_objects.any fun o => containsSub (lowerStr o.label) "container"

/-- Model of `FastDecisionMaker.check_instant_response` of `main_bot_enhanced.py`
(lines 53-77), translated clause by clause. -/
def check_instant_response (gs : GameState) (active_goals : List String) :
    Option Plan3 :=
  let has_enemy := has_enemy_in gs
  if has_enemy && decide (gs.health < 30) then some reflex_enemy_close_health_low
  else if has_enemy && decide (gs.health > 60) then some reflex_enemy_detected_healthy
  else
    let has_loot := has_loot_in gs
    if has_loot && !has_enemy && active_goals.contains "manage_inventory" then
      some reflex_loot_safe_nearby
    else if active_goals.contains "explore" && !has_enemy then
      some reflex_path_clear_exploring
    else none

/-! ## Complexity score: `IntelligentDecisionMaker._calculate_complexity` -/

/-- The context flags read by `_calculate_complexity`
(`comprehensive_fo76_ai.py` lines 390-416). -/
structure ComplexityCtx where
  multiple_threats : Bool
  unknown_location : Bool
  inventory_full : Bool
  low_resources : Bool
  deriving DecidableEq

/-- Model of `IntelligentDecisionMaker._calculate_complexity`, translated from the
sequential `complexity += ...` statements followed by `min(complexity, 1.0)`. -/
def calculate_complexity (goalId : String) (ctx : ComplexityCtx) : ℚ :=
  let c0 : ℚ := 0
  let c1 := c0 +
    (if goalId = "do_public_events" then 0.6
     else if goalId = "manage_inventory" then 0.4
     else if goalId = "fishing" then 0.2
     else 0)
  let c2 := c1 + (if ctx.multiple_threats then 0.3 else 0)
  let c3 := c2 + (if ctx.unknown_location then 0.2 else 0)
  let c4 := c3 + (if ctx.inventory_full then 0.2 else 0)
  let c5 := c4 + (if ctx.low_resources then 0.2 else 0)
  min c5 1

/-- The fixed per-goal base weight of the complexity score. -/
def goal_base_weight (goalId : String) : ℚ :=
  if goalId = "do_public_events" then 0.6
  else if goalId = "manage_inventory" then 0.4
  else if goalId = "fishing" then 0.2
  else 0

/-- The weighted sum the specification describes: base weight plus 0.3 for
multiple hostiles and 0.2 for each of the other three flags. -/
def complexity_weighted_sum (goalId : String) (ctx : ComplexityCtx) : ℚ :=
  goal_base_weight goalId +
    (if ctx.multiple_threats then 0.3 else 0) +
    (if ctx.unknown_location then 0.2 else 0) +
    (if ctx.inventory_full then 0.2 else 0) +
    (if ctx.low_resources then 0.2 else 0)

/-! ## Decision router state: `IntelligentDecisionMaker` initialisation and
escalation check (`comprehensive_fo76_ai.py` lines 326-388) -/

/-- The router-local attributes of `IntelligentDecisionMaker`. -/
structure DecisionMakerState where
  remote_available : Bool
  complex_decision_threshold : ℚ
  last_remote_call : ℚ
  remote_call_cooldown : ℚ
  is_openhermes : Bool
  deriving DecidableEq

/-- OpenHermes detection performed on the reported model name
(the lowercased model name containing `openhermes` or `hermes`). -/
def detects_openhermes (model_name : String) : Bool :=
  containsSub (lowerStr model_name) "openhermes" ||
    containsSub (lowerStr model_name) "hermes"

/-- Model of `IntelligentDecisionMaker._test_kobold_connection` (lines 344-371):
`connected` stands for an HTTP 200 reply from the model-info endpoint and
`model_name` for the reported model.  On detection of OpenHermes it writes
threshold 0.6 and cooldown 30. -/
def test_kobold_connection (st : DecisionMakerState) (connected : Bool)
    (model_name : String) : DecisionMakerState :=
  if connected then
    if detects_openhermes model_name then
      { st with is_openhermes := true, complex_decision_threshold := 0.6,
                remote_call_cooldown := 30, remote_available := true }
    else
      { st with is_openhermes := false, remote_available := true }
  else
    { st with remote_available := false, is_openhermes := false }

/-- Model of `IntelligentDecisionMaker.__init__` (lines 326-342), preserving the
source's statement order: `remote_available = False`, then the call to
`_test_kobold_connection()` (line 336), and then the unconditional
assignments of lines 339-342 (`complex_decision_threshold = 0.7`,
`last_remote_call = 0`, `remote_call_cooldown = 60`,
`is_openhermes = False`). -/
def init_decision_maker (connected : Bool) (model_name : String) :
    DecisionMakerState :=
  let st0 : DecisionMakerState :=
    { remote_available := false, complex_decision_threshold := 0,
      last_remote_call := 0, remote_call_cooldown := 0, is_openhermes := false }
  let st1 := test_kobold_connection st0 connected model_name
  { st1 with complex_decision_threshold := 0.7, last_remote_call := 0,
             remote_call_cooldown := 60, is_openhermes := false }

/-- Which branch `IntelligentDecisionMaker.make_decision` takes. -/
inductive DecisionPath where
  | strategic
  | routine
  deriving DecidableEq

/-- The branch selection of `make_decision` (lines 373-388): strategic when
`complexity >= threshold and remote_available and now - last >= cooldown`. -/
def make_decision_path (st : DecisionMakerState) (complexity now : ℚ) :
    DecisionPath :=
  if complexity ≥ st.complex_decision_threshold ∧ st.remote_available = true ∧
      now - st.last_remote_call ≥ st.remote_call_cooldown then
    DecisionPath.strategic
  else
    DecisionPath.routine

/-! ## Actuator: `ActionController.press` of `input_emulator.py` -/

/-- The evdev key codes used by `ACTION_TO_KEY` (external constants of the
`evdev` package; only their identity matters here). -/
inductive ECode where
  | KEY_W | KEY_S | KEY_A | KEY_D | KEY_SPACE | KEY_LEFTSHIFT
  | KEY_E | KEY_R | KEY_Q | BTN_LEFT | BTN_RIGHT
  | KEY_M | KEY_TAB | KEY_ESC | KEY_ENTER
  | KEY_C | KEY_I | KEY_F | KEY_LEFTCTRL
  deriving DecidableEq

/-- The fixed key mapping `ACTION_TO_KEY` of `input_emulator.py`. -/
def ACTION_TO_KEY : List (String × ECode) :=
  [("FORWARD", ECode.KEY_W), ("BACKWARD", ECode.KEY_S),
   ("STRAFE_LEFT", ECode.KEY_A), ("STRAFE_RIGHT", ECode.KEY_D),
   ("JUMP", ECode.KEY_SPACE), ("SPRINT", ECode.KEY_LEFTSHIFT),
   ("INTERACT", ECode.KEY_E), ("RELOAD", ECode.KEY_R),
   ("VATS", ECode.KEY_Q), ("ATTACK", ECode.BTN_LEFT),
   ("AIM", ECode.BTN_RIGHT), ("M", ECode.KEY_M),
   ("TAB", ECode.KEY_TAB), ("ESC", ECode.KEY_ESC),
   ("ENTER", ECode.KEY_ENTER), ("C", ECode.KEY_C),
   ("I", ECode.KEY_I), ("F", ECode.KEY_F),
   ("CTRL", ECode.KEY_LEFTCTRL)]

/-- Look up a key in a string-keyed association list (Python `dict.get`). -/
def lookupKey (m : List (String × ECode)) (k : String) : Option ECode :=
  match m with
  | [] => none
  | (k2, v) :: rest => if k2 = k then some v else lookupKey rest k

/-- One event written to the input device: key code and value (1 press,
0 release). -/
structure KeyEvent where
  code : ECode
  value : Nat
  deriving DecidableEq

/-- Model of `ActionController.press` (lines 60-98): the action name is uppercased,
looked up in `ACTION_TO_KEY`; an unknown key yields `False` and no device
writes, otherwise a press and a release event are written and the call
returns `True`.  The result is the returned boolean paired with the list of
events written to the device. -/
def press (action_name : String) (_duration : ℚ) : Bool × List KeyEvent :=
  let an := upperStr action_name
  match lookupKey ACTION_TO_KEY an with
  | none => (false, [])
  | some k => (true, [⟨k, 1⟩, ⟨k, 0⟩])

/-! ## Goal registry: `GoalManager` of `comprehensive_fo76_ai.py` -/

/-- An `AIGoal` record restricted to the fields the selection logic reads:
id, enablement flag, priority, and the `weight_threshold` entry of the
conditions dictionary (only read for the inventory goal). -/
structure AIGoal where
  id : String
  enabled : Bool
  priority : Int
  weight_threshold : ℚ
  deriving DecidableEq

/-- The goal-registry state: the `goals` dictionary in insertion order and
the `active_goals` list. -/
structure GoalManager where
  goals : List (String × AIGoal)
  active_goals : List String
  deriving DecidableEq

/-- Association-list lookup modelling Python dictionary access. -/
def lookupGoal (m : List (String × AIGoal)) (k : String) : Option AIGoal :=
  match m with
  | [] => none
  | (k2, v) :: rest => if k2 = k then some v else lookupGoal rest k

/-- Model of `goal_id in self.goals`. -/
def goalKeyPresent (m : List (String × AIGoal)) (k : String) : Bool :=
  (lookupGoal m k).isSome

/-- Replace the `enabled` flag of the entry keyed `k` (in place). -/
def updateEnabled (m : List (String × AIGoal)) (k : String) (b : Bool) :
    List (String × AIGoal) :=
  match m with
  | [] => []
  | (k2, v) :: rest =>
    if k2 = k then (k2, { v with enabled := b }) :: rest
    else (k2, v) :: updateEnabled rest k b

/-- The eight goals of `GoalManager._create_default_goals`
(`comprehensive_fo76_ai.py` lines 199-267), in registry insertion order,
with their ids, enablement flags and priorities. -/
def default_goals : List (String × AIGoal) :=
  [("do_public_events",
    { id := "do_public_events", enabled := false, priority := 8,
      weight_threshold := 0 }),
   ("manage_inventory",
    { id := "manage_inventory", enabled := false, priority := 5,
      weight_threshold := 0.8 }),
   ("fishing",
    { id := "fishing", enabled := false, priority := 3,
      weight_threshold := 0 }),
   ("daily_challenges",
    { id := "daily_challenges", enabled := false, priority := 6,
      weight_threshold := 0 }),
   ("vendor_rounds",
    { id := "vendor_rounds", enabled := false, priority := 4,
      weight_threshold := 0 }),
   ("resource_farming",
    { id := "resource_farming", enabled := false, priority := 2,
      weight_threshold := 0 }),
   ("camp_maintenance",
    { id := "camp_maintenance", enabled := false, priority := 1,
      weight_threshold := 0 }),
   ("explore_and_map",
    { id := "explore_and_map", enabled := true, priority := 1,
      weight_threshold := 0 })]

/-- Model of `GoalManager.__init__`: the default registry; `active_goals` collects the
ids of initially enabled goals in registry order (only the exploration
goal). -/
def init_goal_manager : GoalManager :=
  { goals := default_goals,
    active_goals := (default_goals.filter fun kv => kv.2.enabled).map
      fun kv => kv.1 }

/-- Model of `GoalManager.set_goal_enabled` (lines 274-283): sets the flag; on
enabling appends the id to `active_goals` if absent, on disabling removes
its first occurrence. -/
def set_goal_enabled (gm : GoalManager) (goal_id : String) (enabled : Bool) :
    GoalManager :=
  if goalKeyPresent gm.goals goal_id then
    let goals := updateEnabled gm.goals goal_id enabled
    let active :=
      if enabled && !gm.active_goals.contains goal_id then
        gm.active_goals ++ [goal_id]
      else if !enabled && gm.active_goals.contains goal_id then
        gm.active_goals.erase goal_id
      else gm.active_goals
    { goals := goals, active_goals := active }
  else gm

/-- The context fields read by `GoalManager._goal_conditions_met`. -/
structure GoalCtx where
  public_event_active : Bool
  weightFrac : ℚ
  at_water : Bool
  deriving DecidableEq

/-- Model of `GoalManager._goal_conditions_met` (lines 304-321).  `weightFrac` models
the `weight_ratio` entry of the context. -/
def goal_conditions_met (g : AIGoal) (ctx : GoalCtx) : Bool :=
  if g.id = "do_public_events" then ctx.public_event_active
  else if g.id = "manage_inventory" then
    decide (ctx.weightFrac ≥ g.weight_threshold)
  else if g.id = "fishing" then !ctx.public_event_active && ctx.at_water
  else true

/-- The eligible goals, in `active_goals` order (the iteration order of the
`for goal_id in self.active_goals` loop).  Ids missing from the registry are
skipped; reachable states never contain such ids. -/
def eligible_goals (gm : GoalManager) (ctx : GoalCtx) : List AIGoal :=
  gm.active_goals.filterMap fun gid =>
    match lookupGoal gm.goals gid with
    | some g => if goal_conditions_met g ctx then some g else none
    | none => none

/-- Stable insertion into a list sorted by descending priority: the inserted
goal goes before the first element of not-larger priority, which is how a
stable descending sort orders an earlier element relative to later equal
ones. -/
def insertDesc (g : AIGoal) : List AIGoal → List AIGoal
  | [] => [g]
  | h :: t => if g.priority ≥ h.priority then g :: h :: t else h :: insertDesc g t

/-- Stable sort by descending priority, modelling Python's stable
`list.sort(key=lambda g: g.priority, reverse=True)`. -/
def sortDesc (l : List AIGoal) : List AIGoal := l.foldr insertDesc []

/-- Model of `GoalManager.get_highest_priority_goal` (lines 285-302): collect the
eligible goals, stable-sort by descending priority, return the head (or
`None` when no goal is eligible). -/
def get_highest_priority_goal (gm : GoalManager) (ctx : GoalCtx) :
    Option AIGoal :=
  (sortDesc (eligible_goals gm ctx)).head?

/-- The maximal priority among a nonempty list of goals (junk value on `[]`). -/
def max_priority : List AIGoal → Int
  | [] => 0
  | [g] => g.priority
  | g :: t => max g.priority (max_priority t)

/-- Selection as the specification words it, with the tie-break the code
actually implements: the first goal in activation (`active_goals`) order
whose priority attains the maximum among the eligible goals. -/
def activation_order_select (gm : GoalManager) (ctx : GoalCtx) :
    Option AIGoal :=
  let el := eligible_goals gm ctx
  el.find? fun g => g.priority = max_priority el

/-- Selection as the claim words it: among the eligible goals, the one of
maximal priority that comes first in registry insertion order. -/
def registry_order_select (gm : GoalManager) (ctx : GoalCtx) :
    Option AIGoal :=
  let el := eligible_goals gm ctx
  ((gm.goals.map fun kv => kv.2).filter fun g => el.contains g).find?
    fun g => g.priority = max_priority el

/-- The goal-selection step of `ComprehensiveAI.make_intelligent_decision`
(lines 655-663): the highest-priority eligible goal, or, when none is
eligible, the registry entry `explore_and_map` of the `goals` dictionary regardless of its
enablement flag (`None` here models the `KeyError` that Python would raise
were that entry missing). -/
def select_decision_goal (gm : GoalManager) (ctx : GoalCtx) : Option AIGoal :=
  match get_highest_priority_goal gm ctx with
  | some g => some g
  | none => lookupGoal gm.goals "explore_and_map"

/-- A sequence of `set_goal_enabled` calls applied to the default manager. -/
def apply_goal_calls (calls : List (String × Bool)) : GoalManager :=
  calls.foldl (fun gm c => set_goal_enabled gm c.1 c.2) init_goal_manager

/-! ## The enhanced-bot goal manager (`main_bot_enhanced.py` lines 79-144) -/

/-- The six goals of the enhanced bot's `GoalManager`, in registry insertion
order (id, enabled, priority). -/
def enhanced_goals : List (String × Bool × Int) :=
  [("do_public_events", false, 9), ("manage_inventory", false, 7),
   ("fishing", false, 4), ("daily_challenges", false, 6),
   ("vendor_rounds", false, 5), ("explore_and_map", true, 2)]

/-- Model of `GoalManager.get_highest_priority_goal` of `main_bot_enhanced.py`
(lines 139-144): `max(active, key=lambda g: g.priority)` over the enabled
goals in registry iteration order; Python's `max` keeps the first maximal
element. -/
def enhanced_highest_goal (goals : List (String × Bool × Int)) :
    Option (String × Bool × Int) :=
  let active := goals.filter fun g => g.2.1
  active.foldl
    (fun best g =>
      match best with
      | none => some g
      | some b => if g.2.2 > b.2.2 then some g else some b)
    none

/-! ## JSON values, serialisation and parsing

The plan dictionaries the model clients exchange are flat JSON objects whose
values are strings, numbers, booleans or null.  Numbers are kept as their
numeral text (`json.loads`/`json.dumps` round numeric values through floats;
the numeral text is all the plan logic ever compares).  The parser models
`json.loads` on this fragment, including string escape sequences. -/

/-- A primitive JSON value. -/
inductive Json where
  | null
  | bool (b : Bool)
  | num (s : String)
  | str (s : String)
  deriving DecidableEq

/-- A JSON object / Python dictionary as an ordered association list. -/
abbrev JsonObj := List (String × Json)

/-- First-match association-list lookup (Python `d[k]` / `k in d`). -/
def jlookup (k : String) : JsonObj → Option Json
  | [] => none
  | (k2, v) :: rest => if k2 = k then some v else jlookup k rest

/-- Python dictionary insertion `d[k] = v`: overwrite in place if the key
exists, else append. -/
def insertKV (o : JsonObj) (k : String) (v : Json) : JsonObj :=
  match o with
  | [] => [(k, v)]
  | (k2, v2) :: rest =>
    if k2 = k then (k2, v) :: rest else (k2, v2) :: insertKV rest k v

/-- Build a dictionary from parsed members in order, later duplicate keys
overwriting earlier ones in place, exactly as `json.loads` builds a `dict`. -/
def canonObj (l : JsonObj) : JsonObj :=
  l.foldl (fun o kv => insertKV o kv.1 kv.2) []

/-- JSON whitespace. -/
def isWsChar (c : Char) : Bool := c = ' ' || c = '\t' || c = '\n' || c = '\r'

/-- Drop leading JSON whitespace. -/
def skipWs (l : List Char) : List Char := l.dropWhile isWsChar

/-- Hexadecimal digit value. -/
def hexVal (c : Char) : Option Nat :=
  if c.isDigit then some (c.toNat - 48)
  else if 97 ≤ c.toNat && c.toNat ≤ 102 then some (c.toNat - 87)
  else if 65 ≤ c.toNat && c.toNat ≤ 70 then some (c.toNat - 55)
  else none

/-- The single-character JSON string escapes. -/
def escDecode (c : Char) : Option Char :=
  if c = '"' then some '"'
  else if c = '\\' then some '\\'
  else if c = '/' then some '/'
  else if c = 'b' then some (Char.ofNat 8)
  else if c = 'f' then some (Char.ofNat 12)
  else if c = 'n' then some '\n'
  else if c = 'r' then some '\r'
  else if c = 't' then some '\t'
  else none

/-- Parse the body of a JSON string after its opening quote, returning the
decoded characters and the input remaining after the closing quote.  Handles
the standard escapes and `\uXXXX`; rejects unescaped control characters and
unterminated strings, as `json.loads` does. -/
def parseStringBody : List Char → Option (List Char × List Char)
  | [] => none
  | c :: rest =>
    if c = '"' then some ([], rest)
    else if c = '\\' then
      match rest with
      | [] => none
      | e :: rest2 =>
        if e = 'u' then
          match rest2 with
          | h1 :: h2 :: h3 :: h4 :: rest3 =>
            (match hexVal h1, hexVal h2, hexVal h3, hexVal h4 with
             | some a, some b, some c2, some d =>
               (parseStringBody rest3).map fun p =>
                 (Char.ofNat (((a * 16 + b) * 16 + c2) * 16 + d) :: p.1, p.2)
             | _, _, _, _ => none)
          | _ => none
        else
          match escDecode e with
          | some ec => (parseStringBody rest2).map fun p => (ec :: p.1, p.2)
          | none => none
    else if c.toNat < 32 then none
    else (parseStringBody rest).map fun p => (c :: p.1, p.2)

/-- Characters a JSON numeral may consist of. -/
def isNumChar (c : Char) : Bool :=
  c.isDigit || c = '-' || c = '+' || c = '.' || c = 'e' || c = 'E'

/-- Parse one primitive JSON value; returns it with the remaining input. -/
def parseVal (l : List Char) : Option (Json × List Char) :=
  match l with
  | [] => none
  | c :: rest =>
    if c = '"' then
      (parseStringBody rest).map fun p => (Json.str ⟨p.1⟩, p.2)
    else if c = '-' || c.isDigit then
      some (Json.num ⟨l.takeWhile isNumChar⟩, l.dropWhile isNumChar)
    else if startsWithL ['t', 'r', 'u', 'e'] l then
      some (Json.bool true, l.drop 4)
    else if startsWithL ['f', 'a', 'l', 's', 'e'] l then
      some (Json.bool false, l.drop 5)
    else if startsWithL ['n', 'u', 'l', 'l'] l then
      some (Json.null, l.drop 4)
    else none

/-- Parse the members of a JSON object after its opening brace (first member
onward), returning them in textual order together with the input remaining
after the closing brace.  The fuel argument bounds the number of members and
is instantiated with the input length. -/
def parseMembers : Nat → List Char → Option (JsonObj × List Char)
  | 0, _ => none
  | fuel + 1, l =>
    match l with
    | [] => none
    | c :: rest =>
      if c = '"' then
        match parseStringBody rest with
        | none => none
        | some (kcs, r1) =>
          match skipWs r1 with
          | [] => none
          | c2 :: r2 =>
            if c2 = ':' then
              match parseVal (skipWs r2) with
              | none => none
              | some (v, r3) =>
                match skipWs r3 with
                | [] => none
                | c3 :: r4 =>
                  if c3 = ',' then
                    match parseMembers fuel (skipWs r4) with
                    | none => none
                    | some (ms, r5) => some ((⟨kcs⟩, v) :: ms, r5)
                  else if c3 = rbrace then some ([(⟨kcs⟩, v)], r4)
                  else none
            else none
      else none

/-- Parse a complete JSON object text: optional surrounding whitespace, an
opening brace, members, a closing brace, nothing else.  Returns the members
in textual order (duplicates included). -/
def jsonParseRaw (s : String) : Option JsonObj :=
  match skipWs s.toList with
  | [] => none
  | c :: rest =>
    if c = lbrace then
      let r1 := skipWs rest
      match r1 with
      | [] => none
      | c2 :: r2 =>
        if c2 = rbrace then
          if (skipWs r2).isEmpty then some [] else none
        else
          match parseMembers r1.length r1 with
          | none => none
          | some (ms, r3) => if (skipWs r3).isEmpty then some ms else none
    else none

/-- Model of `json.loads` on a flat object text: parse the members and build the
dictionary. -/
def jsonParse (s : String) : Option JsonObj := (jsonParseRaw s).map canonObj

/-- Serialise one character of a JSON string, as `json.dumps` escapes it
(quotes, backslashes and the common control characters). -/
def escapeChar (c : Char) : List Char :=
  if c = '"' then ['\\', '"']
  else if c = '\\' then ['\\', '\\']
  else if c = '\n' then ['\\', 'n']
  else if c = '\t' then ['\\', 't']
  else if c = '\r' then ['\\', 'r']
  else if c = Char.ofNat 8 then ['\\', 'b']
  else if c = Char.ofNat 12 then ['\\', 'f']
  else if c.toNat < 32 then
    ['\\', 'u', '0', '0',
     (Nat.digitChar (c.toNat / 16)), (Nat.digitChar (c.toNat % 16))]
  else [c]

/-- The serialised body of a JSON string. -/
def escList (cs : List Char) : List Char := (cs.map escapeChar).flatten

/-- Serialise a JSON string with its quotes. -/
def dumpString (s : String) : List Char := '"' :: escList s.toList ++ ['"']

/-- Serialise a primitive JSON value. -/
def dumpVal : Json → List Char
  | Json.null => ['n', 'u', 'l', 'l']
  | Json.bool true => ['t', 'r', 'u', 'e']
  | Json.bool false => ['f', 'a', 'l', 's', 'e']
  | Json.num s => s.toList
  | Json.str s => dumpString s

/-- Serialise the members of an object with the default `json.dumps`
separators: colon-space between key and value, comma-space between
members. -/
def dumpMembers : JsonObj → List Char
  | [] => []
  | [(k, v)] => dumpString k ++ ':' :: ' ' :: dumpVal v
  | (k, v) :: rest =>
    dumpString k ++ ':' :: ' ' :: dumpVal v ++ ',' :: ' ' :: dumpMembers rest

/-- Model of `json.dumps` of a flat object. -/
def dumpObjStr (o : JsonObj) : String := ⟨lbrace :: dumpMembers o ++ [rbrace]⟩

/-! ## The two regex extraction steps

`llm_module.py` scans responses with the greedy `re.search` of a
brace-to-brace block with dot-matches-all, whose leftmost-longest match runs
from the first opening brace to the last closing brace of the text.
`local_llm_module.py` (and the strategic paths reuse the greedy form) scans
with a bracket-negated body, whose match stops at the first closing brace. -/

/-- The suffix of the text starting at its first opening brace. -/
def dropToOpen : List Char → List Char
  | [] => []
  | c :: rest => if c = lbrace then c :: rest else dropToOpen rest

/-- The prefix of the text up to and including its first closing brace. -/
def takeToClose : List Char → Option (List Char)
  | [] => none
  | c :: rest =>
    if c = rbrace then some [c] else (takeToClose rest).map (c :: ·)

/-- The match of the non-greedy, negated-body brace pattern of
`LocalBrain._extract_plan_from_response`: from the first opening brace to the first
closing brace after it; no match when either brace is missing. -/
def local_json_substr (t : String) : Option String :=
  match dropToOpen t.toList with
  | [] => none
  | c :: rest => (takeToClose rest).map fun m => ⟨c :: m⟩

/-- The match of the greedy dot-matches-all brace pattern of
`BigBrain.get_plan`:
leftmost start at the first opening brace, greedy body ending at the last
closing brace of the text; no match when no closing brace follows the first
opening brace. -/
def big_json_substr (t : String) : Option String :=
  match dropToOpen t.toList with
  | [] => none
  | c :: rest =>
    let revTail := rest.reverse.dropWhile fun x => !(x = rbrace)
    if revTail.isEmpty then none else some ⟨c :: revTail.reverse⟩

/-- Modelled from the spec: "a single JSON object is extracted via
first-brace-to-last-brace scanning" — the substring of the text from its
first opening brace through its last closing brace, when that span is
well-formed. -/
def spec_first_to_last_substr (t : String) : Option String :=
  let afterOpen := t.toList.dropWhile fun c => !(c = lbrace)
  let upToClose := (afterOpen.reverse.dropWhile fun c => !(c = rbrace)).reverse
  if upToClose.isEmpty then none else some ⟨upToClose⟩

/-! ## `LocalBrain` (`local_llm_module.py`): plan extraction and fallbacks -/

/-- Model of `LocalBrain._extract_action_from_text` (lines 192-212): keyword scan of
the lowercased response, first match winning, with a final default plan. -/
def extract_action_from_text (t : String) : JsonObj :=
  let tl := lowerStr t
  if containsSub tl "map" || containsSub tl "tab" then
    [("action", Json.str "TAB"), ("duration", Json.num "0.1"),
     ("reason", Json.str "check map")]
  else if containsSub tl "forward" || containsSub tl "move ahead" then
    [("action", Json.str "FORWARD"), ("duration", Json.num "2.0"),
     ("reason", Json.str "move forward")]
  else if containsSub tl "look" &&
      (containsSub tl "around" || containsSub tl "scan") then
    [("action", Json.str "SMOOTH_LOOK"), ("dx", Json.num "45"),
     ("dy", Json.num "0"), ("duration", Json.num "0.5"),
     ("reason", Json.str "look around")]
  else if containsSub tl "attack" || containsSub tl "fight" ||
      containsSub tl "vats" then
    [("action", Json.str "VATS"), ("duration", Json.num "0.1"),
     ("reason", Json.str "engage enemy")]
  else if containsSub tl "interact" || containsSub tl "use" ||
      containsSub tl "pick" then
    [("action", Json.str "INTERACT"), ("duration", Json.num "1.0"),
     ("reason", Json.str "interact with object")]
  else if containsSub tl "wait" || containsSub tl "pause" then
    [("action", Json.str "WAIT"), ("duration", Json.num "2.0"),
     ("reason", Json.str "wait and observe")]
  else
    [("action", Json.str "FORWARD"), ("duration", Json.num "1.5"),
     ("reason", Json.str "continue exploration")]

/-- One `if key not in plan: plan[key] = value` statement. -/
def with_default (plan : JsonObj) (k : String) (v : Json) : JsonObj :=
  if (jlookup k plan).isSome then plan else insertKV plan k v

/-- The defaulting step of `_extract_plan_from_response` (lines 177-182): a
missing `duration` becomes 1.0 and a missing `reason` becomes
`AI decision`, each appended as Python dictionary insertion does. -/
def apply_plan_defaults (plan : JsonObj) : JsonObj :=
  with_default (with_default plan "duration" (Json.num "1.0")) "reason"
    (Json.str "AI decision")

/-- Model of `LocalBrain._extract_plan_from_response` (lines 165-190): take the
non-greedy brace match, parse it, and if the parse succeeds and carries an
`action` key apply the defaults; otherwise fall back to the
natural-language keyword scan of the full response text. -/
def extract_plan_from_response (t : String) : JsonObj :=
  match local_json_substr t with
  | some s =>
    match jsonParse s with
    | some plan =>
      if (jlookup "action" plan).isSome then apply_plan_defaults plan
      else extract_action_from_text t
    | none => extract_action_from_text t
  | none => extract_action_from_text t

/-- Model of `LocalBrain._combat_fallback_plan`. -/
def combat_fallback_plan : JsonObj :=
  [("action", Json.str "VATS"), ("duration", Json.num "0.1"),
   ("reason", Json.str "engage_detected_threat"),
   ("source", Json.str "combat_fallback")]

/-- Model of `LocalBrain._orientation_fallback_plan`. -/
def orientation_fallback_plan : JsonObj :=
  [("action", Json.str "TAB"), ("duration", Json.num "0.1"),
   ("reason", Json.str "check_map_for_orientation"),
   ("source", Json.str "orientation_fallback")]

/-- Model of `LocalBrain._investigation_fallback_plan`. -/
def investigation_fallback_plan : JsonObj :=
  [("action", Json.str "INTERACT"), ("duration", Json.num "1.0"),
   ("reason", Json.str "investigate_objects"),
   ("source", Json.str "investigation_fallback")]

/-- Model of `LocalBrain._exploration_fallback_plan`. -/
def exploration_fallback_plan : JsonObj :=
  [("action", Json.str "FORWARD"), ("duration", Json.num "2.5"),
   ("reason", Json.str "continue_exploration"),
   ("source", Json.str "exploration_fallback")]

/-- Model of `LocalBrain._default_fallback_plan`. -/
def default_fallback_plan : JsonObj :=
  [("action", Json.str "SMOOTH_LOOK"), ("dx", Json.num "45"),
   ("dy", Json.num "0"), ("duration", Json.num "0.5"),
   ("reason", Json.str "assess_situation"),
   ("source", Json.str "default_fallback")]

/-- Model of `LocalBrain._generate_smart_fallback_plan` (lines 214-235): a fixed
table keyed by coarse signals read off the lowercased prompt. -/
def generate_smart_fallback_plan (prompt : String) : JsonObj :=
  let pl := lowerStr prompt
  let has_threats := containsSub pl "threat" || containsSub pl "enemy" ||
    containsSub pl "combat" || containsSub pl "danger" ||
    containsSub pl "person"
  let needs_orientation := containsSub pl "location unknown" ||
    containsSub pl "map" || containsSub pl "bearings" ||
    containsSub pl "orient"
  let has_objects := containsSub pl "objects" || containsSub pl "container" ||
    containsSub pl "loot"
  let is_clear := containsSub pl "clear" || containsSub pl "safe"
  if has_threats then combat_fallback_plan
  else if needs_orientation then orientation_fallback_plan
  else if has_objects then investigation_fallback_plan
  else if is_clear then exploration_fallback_plan
  else default_fallback_plan

/-- Model of `LocalBrain.get_plan` (lines 62-105).  The brain's mutable state is the
`consecutive_failures` counter; the backend transport is abstracted as
`Option String` — `none` for a request failure, timeout or malformed
response envelope, `some text` for generated text.  Returns the plan
together with the new failure counter.  With at least
`max_failures_before_fallback = 2` recorded failures the backend is not
contacted at all; a failed call increments the counter and falls back; a
successful call always extracts a plan (the extraction step is total) and
resets the counter. -/
def local_get_plan (consecutive_failures : Nat) (backend : Option String)
    (prompt : String) : JsonObj × Nat :=
  if consecutive_failures ≥ 2 then
    (generate_smart_fallback_plan prompt, consecutive_failures)
  else
    match backend with
    | none => (generate_smart_fallback_plan prompt, consecutive_failures + 1)
    | some text => (extract_plan_from_response text, 0)

/-! ## `LightweightBrain` (`local_llm_lightweight.py`) -/

/-- The `quick_decisions` template table (lines 22-28). -/
def quick_decisions : List (String × JsonObj) :=
  [("enemy_detected",
    [("action", Json.str "VATS"), ("duration", Json.num "0.1"),
     ("reason", Json.str "engage_target")]),
   ("loot_nearby",
    [("action", Json.str "INTERACT"), ("duration", Json.num "0.5"),
     ("reason", Json.str "collect_loot")]),
   ("health_low",
    [("action", Json.str "BACKWARD"), ("duration", Json.num "2.0"),
     ("reason", Json.str "seek_safety")]),
   ("exploring",
    [("action", Json.str "FORWARD"), ("duration", Json.num "2.0"),
     ("reason", Json.str "continue_exploration")]),
   ("stuck",
    [("action", Json.str "BACKWARD"), ("duration", Json.num "1.0"),
     ("reason", Json.str "unstuck")])]

/-- Template lookup. -/
def lookupTemplate (m : List (String × JsonObj)) (k : String) :
    Option JsonObj :=
  match m with
  | [] => none
  | (k2, v) :: rest => if k2 = k then some v else lookupTemplate rest k

/-- Model of `LightweightBrain.get_quick_decision` (lines 51-60): a copy of the
matching template with `source` set to `template`; an unknown situation
type falls back to the exploring template (uncopied and untagged in the
source). -/
def get_quick_decision (situation_type : String) : JsonObj :=
  match lookupTemplate quick_decisions situation_type with
  | some d => insertKV d "source" (Json.str "template")
  | none => (lookupTemplate quick_decisions "exploring").getD []

/-- Model of `LightweightBrain.get_plan` (lines 62-112).  The keyword checks on the
lowercased prompt are performed before any backend interaction; only when
none of them match is the model consulted (or, past the failure limit of 1,
the exploring template returned).  The backend transport is again
`Option String`.  When generated text arrives, the greedy brace match is
parsed; success tags the plan `source` equal to `lightweight_ai` and resets the
counter, a parse error inside `json.loads` raises and increments the
counter, and an absent brace match falls through without touching the
counter. -/
def lightweight_get_plan (prompt : String) (consecutive_failures : Nat)
    (backend : Option String) : JsonObj × Nat :=
  let pl := lowerStr prompt
  if containsSub pl "enemy" || containsSub pl "person" then
    (get_quick_decision "enemy_detected", consecutive_failures)
  else if containsSub pl "loot" || containsSub pl "container" then
    (get_quick_decision "loot_nearby", consecutive_failures)
  else if containsSub pl "health" && containsSub pl "low" then
    (get_quick_decision "health_low", consecutive_failures)
  else if containsSub pl "stuck" then
    (get_quick_decision "stuck", consecutive_failures)
  else if consecutive_failures ≥ 1 then
    (get_quick_decision "exploring", consecutive_failures)
  else
    match backend with
    | none => (get_quick_decision "exploring", consecutive_failures + 1)
    | some text =>
      match big_json_substr text with
      | some s =>
        match jsonParse s with
        | some plan =>
          (insertKV plan "source" (Json.str "lightweight_ai"), 0)
        | none => (get_quick_decision "exploring", consecutive_failures + 1)
      | none => (get_quick_decision "exploring", consecutive_failures)

/-! ## Safety predicates for the serialisation round trip -/

/-- A character that survives the plan pipeline's serialise/re-extract cycle:
printable (no control characters, which `json.dumps` would escape) and not a
closing brace (which would truncate the non-greedy re-extraction). -/
def safeChar (c : Char) : Bool := 32 ≤ c.toNat && !(c = rbrace)

/-- All characters of the string are safe. -/
def safeStrB (s : String) : Bool := s.toList.all safeChar

/-- A well-formed numeral text: nonempty, beginning with a digit or a minus
sign, all characters numeral characters. -/
def wfNumB (s : String) : Bool :=
  match s.toList with
  | [] => false
  | c :: _ => (c = '-' || c.isDigit) && s.toList.all isNumChar

/-- A safe primitive value. -/
def safeValB : Json → Bool
  | Json.null => true
  | Json.bool _ => true
  | Json.num s => wfNumB s
  | Json.str s => safeStrB s

/-- A safe plan object: safe keys and safe values. -/
def safePlanB (o : JsonObj) : Bool :=
  o.all fun kv => safeStrB kv.1 && safeValB kv.2

/-- The keys of the object are pairwise distinct. -/
def nodupKeysB : JsonObj → Bool
  | [] => true
  | (k, _) :: rest => (jlookup k rest).isNone && nodupKeysB rest

/-! ## Theorems -/

theorem ite_nonneg_q (P : Prop) [Decidable P] (x y : ℚ) (hx : 0 ≤ x)
    (hy : 0 ≤ y) : 0 ≤ if P then x else y := by
  split <;> assumption

/-- C9 counterexample: the action name `forward` is not a key of the
actuator's fixed key mapping, yet `press` on `forward` does not reject it: the
name is uppercased first, so the call returns `True` and writes a press and
a release of the W key to the device. -/
theorem c9_press_lowercase_counterexample :
    lookupKey ACTION_TO_KEY "forward" = none ∧
    press "forward" 1 ≠ (false, []) ∧
    press "forward" 1 = (true, [⟨ECode.KEY_W, 1⟩, ⟨ECode.KEY_W, 0⟩]) := by
  decide

/-- C9 (amended): for every action name whose uppercased form is not a key
of the fixed mapping, `press` returns `False` and writes no event to the
input device. -/
theorem c9_unknown_action_rejected (name : String) (d : ℚ)
    (h : lookupKey ACTION_TO_KEY (upperStr name) = none) :
    press name d = (false, []) := by
  simp [press, h]

/-- C9 witness: `FLY` is unknown even after uppercasing and is rejected
without side effects. -/
theorem c9_unknown_action_rejected_witness :
    lookupKey ACTION_TO_KEY (upperStr "FLY") = none ∧
    press "FLY" 1 = (false, []) :=
  ⟨by decide, c9_unknown_action_rejected "FLY" 1 (by decide)⟩

/-- C2 counterexample: a context with a hostile entity (`person` label)
and health 45 — hostile present, health not below the low-health
threshold 30 — is not classified as enemy detected: `check_instant_response`
returns no instant plan at all, because the engage branch requires health
strictly above 60. -/
theorem c2_mid_health_counterexample :
    has_enemy_in ⟨[⟨"person"⟩], 45⟩ = true ∧
    ¬ ((45 : Int) < 30) ∧
    check_instant_response ⟨[⟨"person"⟩], 45⟩ [] = none ∧
    check_instant_response ⟨[⟨"person"⟩], 45⟩ [] ≠
      some reflex_enemy_detected_healthy := by
  decide

/-- C2 (amended): with a hostile entity present, health below 30 yields the
low-health retreat plan regardless of anything else; health above 60 yields
the engage plan; health between 30 and 60 yields no instant response; and a
hostile context is never classified as loot, whatever the goals. -/
theorem c2_classifier_precedence (gs : GameState) (goals : List String) :
    (has_enemy_in gs = true → gs.health < 30 →
      check_instant_response gs goals = some reflex_enemy_close_health_low) ∧
    (has_enemy_in gs = true → 60 < gs.health →
      check_instant_response gs goals = some reflex_enemy_detected_healthy) ∧
    (has_enemy_in gs = true → 30 ≤ gs.health → gs.health ≤ 60 →
      check_instant_response gs goals = none) ∧
    (has_enemy_in gs = true →
      check_instant_response gs goals ≠ some reflex_loot_safe_nearby) := by
  refine ⟨?_, ?_, ?_, ?_⟩
  · intro he hh
    simp [check_instant_response, he, hh]
  · intro he hh
    have h1 : ¬ (gs.health < 30) := by omega
    simp [check_instant_response, he, hh, h1]
  · intro he h1 h2
    have n1 : ¬ (gs.health < 30) := by omega
    have n2 : ¬ (60 < gs.health) := by omega
    simp [check_instant_response, he, n1, n2]
  · intro he
    by_cases h1 : gs.health < 30
    · simp [check_instant_response, he, h1, reflex_enemy_close_health_low,
        reflex_loot_safe_nearby]
    · by_cases h2 : 60 < gs.health
      · simp [check_instant_response, he, h1, h2,
          reflex_enemy_detected_healthy, reflex_loot_safe_nearby]
      · simp [check_instant_response, he, h1, h2]

/-- C2 witness: a hostile context at health 20 (with a lootable container
also visible and the inventory goal active) is classified as low-health
combat. -/
theorem c2_classifier_precedence_witness :
    has_enemy_in ⟨[⟨"person"⟩, ⟨"container"⟩], 20⟩ = true ∧
    (20 : Int) < 30 ∧
    check_instant_response ⟨[⟨"person"⟩, ⟨"container"⟩], 20⟩
      ["manage_inventory"] = some reflex_enemy_close_health_low :=
  ⟨by decide, by decide,
    (c2_classifier_precedence ⟨[⟨"person"⟩, ⟨"container"⟩], 20⟩
      ["manage_inventory"]).1 (by decide) (by decide)⟩

/-- C3: the complexity score equals the weighted sum — per-goal base weight,
plus 0.3 for multiple hostiles and 0.2 for each of unknown location, full
inventory and scarce resources — clamped at 1.0, and always lies in the
interval from 0 to 1. -/
theorem c3_complexity_weighted_sum_clamped (gid : String)
    (ctx : ComplexityCtx) :
    calculate_complexity gid ctx = min (complexity_weighted_sum gid ctx) 1 ∧
    0 ≤ calculate_complexity gid ctx ∧ calculate_complexity gid ctx ≤ 1 := by
  have hsum : 0 ≤ complexity_weighted_sum gid ctx := by
    unfold complexity_weighted_sum goal_base_weight
    repeat' first
      | apply add_nonneg
      | apply ite_nonneg_q
      | norm_num
  have heq : calculate_complexity gid ctx =
      min (complexity_weighted_sum gid ctx) 1 := by
    simp only [calculate_complexity, complexity_weighted_sum,
      goal_base_weight, zero_add]
  refine ⟨heq, ?_, ?_⟩
  · rw [heq]
    exact le_min hsum (by norm_num)
  · rw [heq]
    exact min_le_right _ _

/-- C4: evaluation at the failing input.  Connecting to a server that
reports an OpenHermes model is detected, and the connection test alone
would set threshold 0.6 and cooldown 30; but the constructor calls the test
before the unconditional assignments of lines 339-342, so the initialised
decision maker always carries threshold 0.7, cooldown 60 and
`is_openhermes = False`, contradicting the comments on those lines.  The
escalation test itself is exactly the claimed conjunction, and the scenario
weights 0.6 + 0.3 give complexity 0.9, which escalates under the effective
threshold 0.7 once the cooldown has elapsed and the backend is marked
available. -/
theorem c4_openhermes_tuning_clobbered :
    detects_openhermes "OpenHermes-2.5-Mistral-7B" = true ∧
    (test_kobold_connection ⟨false, 0, 0, 0, false⟩ true
      "OpenHermes-2.5-Mistral-7B").complex_decision_threshold = 0.6 ∧
    (test_kobold_connection ⟨false, 0, 0, 0, false⟩ true
      "OpenHermes-2.5-Mistral-7B").remote_call_cooldown = 30 ∧
    (init_decision_maker true
      "OpenHermes-2.5-Mistral-7B").complex_decision_threshold = 0.7 ∧
    (init_decision_maker true
      "OpenHermes-2.5-Mistral-7B").remote_call_cooldown = 60 ∧
    (init_decision_maker true "OpenHermes-2.5-Mistral-7B").is_openhermes =
      false ∧
    (init_decision_maker true
      "OpenHermes-2.5-Mistral-7B").remote_available = true ∧
    calculate_complexity "do_public_events" ⟨true, false, false, false⟩ =
      0.9 ∧
    make_decision_path (init_decision_maker true "OpenHermes-2.5-Mistral-7B")
      0.9 61 = DecisionPath.strategic ∧
    (∀ (st : DecisionMakerState) (c now : ℚ),
      make_decision_path st c now = DecisionPath.strategic ↔
        (c ≥ st.complex_decision_threshold ∧ st.remote_available = true ∧
          now - st.last_remote_call ≥ st.remote_call_cooldown)) := by
  have hdet : detects_openhermes "OpenHermes-2.5-Mistral-7B" = true := by
    decide
  refine ⟨hdet, ?_, ?_, ?_, ?_, ?_, ?_, ?_, ?_, ?_⟩
  · simp [test_kobold_connection, hdet]
  · simp [test_kobold_connection, hdet]
  · simp [init_decision_maker, test_kobold_connection, hdet]
  · simp [init_decision_maker, test_kobold_connection, hdet]
  · simp [init_decision_maker, test_kobold_connection, hdet]
  · simp [init_decision_maker, test_kobold_connection, hdet]
  · norm_num [calculate_complexity]
  · norm_num [make_decision_path, init_decision_maker,
      test_kobold_connection, hdet]
  · intro st c now
    unfold make_decision_path
    split
    · simp_all
    · simp_all

theorem jlookup_insertKV_self (o : JsonObj) (k : String) (v : Json) :
    jlookup k (insertKV o k v) = some v := by
  induction o with
  | nil => simp [insertKV, jlookup]
  | cons kv rest ih =>
    obtain ⟨k2, v2⟩ := kv
    by_cases h : k2 = k
    · simp [insertKV, h, jlookup]
    · simp [insertKV, h, jlookup, ih]

theorem jlookup_insertKV_ne (o : JsonObj) (k k2 : String) (v : Json)
    (h : k ≠ k2) : jlookup k (insertKV o k2 v) = jlookup k o := by
  induction o with
  | nil => simp [insertKV, jlookup, Ne.symm h]
  | cons kv rest ih =>
    obtain ⟨k3, v3⟩ := kv
    by_cases h2 : k3 = k2
    · subst h2
      have h3 : ¬ (k3 = k) := fun hk => h hk.symm
      simp [insertKV, jlookup, h3]
    · by_cases h3 : k3 = k <;> simp [insertKV, jlookup, h2, h3, h, ih]

theorem jlookup_with_default_ne (plan : JsonObj) (k k2 : String) (v : Json)
    (h : k ≠ k2) :
    jlookup k (with_default plan k2 v) = jlookup k plan := by
  unfold with_default
  split
  · rfl
  · exact jlookup_insertKV_ne _ _ _ _ h

theorem jlookup_with_default_some (plan : JsonObj) (k : String) (v : Json) :
    (jlookup k (with_default plan k v)).isSome = true := by
  unfold with_default
  split
  · assumption
  · rw [jlookup_insertKV_self]
    rfl

theorem jlookup_with_default_none (plan : JsonObj) (k : String) (v : Json)
    (h : jlookup k plan = none) :
    jlookup k (with_default plan k v) = some v := by
  unfold with_default
  rw [if_neg (by simp [h]), jlookup_insertKV_self]

theorem with_default_of_present (plan : JsonObj) (k : String) (v : Json)
    (h : (jlookup k plan).isSome = true) : with_default plan k v = plan := by
  unfold with_default
  rw [if_pos h]

theorem apply_defaults_action (plan : JsonObj) :
    jlookup "action" (apply_plan_defaults plan) = jlookup "action" plan := by
  unfold apply_plan_defaults
  rw [jlookup_with_default_ne _ _ _ _ (by decide),
    jlookup_with_default_ne _ _ _ _ (by decide)]

theorem apply_defaults_duration_some (plan : JsonObj) :
    (jlookup "duration" (apply_plan_defaults plan)).isSome = true := by
  unfold apply_plan_defaults
  rw [jlookup_with_default_ne _ _ _ _ (by decide)]
  exact jlookup_with_default_some _ _ _

theorem apply_defaults_reason_some (plan : JsonObj) :
    (jlookup "reason" (apply_plan_defaults plan)).isSome = true :=
  jlookup_with_default_some _ _ _

theorem apply_defaults_duration_default (plan : JsonObj)
    (h : jlookup "duration" plan = none) :
    jlookup "duration" (apply_plan_defaults plan) =
      some (Json.num "1.0") := by
  unfold apply_plan_defaults
  rw [jlookup_with_default_ne _ _ _ _ (by decide),
    jlookup_with_default_none _ _ _ h]

theorem apply_defaults_reason_default (plan : JsonObj)
    (h : jlookup "reason" plan = none) :
    jlookup "reason" (apply_plan_defaults plan) =
      some (Json.str "AI decision") := by
  unfold apply_plan_defaults
  apply jlookup_with_default_none
  rw [jlookup_with_default_ne _ _ _ _ (by decide)]
  exact h

theorem apply_defaults_of_present (plan : JsonObj)
    (h1 : (jlookup "duration" plan).isSome = true)
    (h2 : (jlookup "reason" plan).isSome = true) :
    apply_plan_defaults plan = plan := by
  unfold apply_plan_defaults
  rw [with_default_of_present _ _ _ h1, with_default_of_present _ _ _ h2]

theorem eat_has_fields (t : String) :
    ((jlookup "action" (extract_action_from_text t)).isSome &&
     (jlookup "duration" (extract_action_from_text t)).isSome &&
     (jlookup "reason" (extract_action_from_text t)).isSome) = true := by
  simp only [extract_action_from_text]
  repeat' split
  all_goals decide

theorem gsfp_has_fields (p : String) :
    ((jlookup "action" (generate_smart_fallback_plan p)).isSome &&
     (jlookup "duration" (generate_smart_fallback_plan p)).isSome &&
     (jlookup "reason" (generate_smart_fallback_plan p)).isSome) = true := by
  simp only [generate_smart_fallback_plan]
  repeat' split
  all_goals decide

theorem epr_has_fields (t : String) :
    ((jlookup "action" (extract_plan_from_response t)).isSome &&
     (jlookup "duration" (extract_plan_from_response t)).isSome &&
     (jlookup "reason" (extract_plan_from_response t)).isSome) = true := by
  unfold extract_plan_from_response
  cases h1 : local_json_substr t with
  | none => exact eat_has_fields t
  | some s =>
    dsimp only
    cases h2 : jsonParse s with
    | none => exact eat_has_fields t
    | some plan =>
      dsimp only
      by_cases h3 : (jlookup "action" plan).isSome = true
      · rw [if_pos h3, apply_defaults_action plan]
        simp [h3, apply_defaults_duration_some, apply_defaults_reason_some]
      · rw [if_neg h3]
        exact eat_has_fields t

/-- C1: with a backend whose every call fails or times out (`none`
transport), `LocalBrain.get_plan` always terminates in the deterministic
fallback tier and returns the hand-coded fallback plan; and whatever the
backend does, the returned plan always carries an `action`, a `duration`
and a `reason` field, so the routine never yields no plan. -/
theorem c1_get_plan_total_fallback (failures : Nat) (prompt : String) :
    (local_get_plan failures none prompt).1 =
      generate_smart_fallback_plan prompt ∧
    (∀ backend : Option String,
      ((jlookup "action" ((local_get_plan failures backend prompt).1)).isSome &&
       (jlookup "duration" ((local_get_plan failures backend prompt).1)).isSome &&
       (jlookup "reason" ((local_get_plan failures backend prompt).1)).isSome)
        = true) := by
  constructor
  · unfold local_get_plan
    split
    · rfl
    · rfl
  · intro backend
    unfold local_get_plan
    split
    · exact gsfp_has_fields prompt
    · cases backend
      · exact gsfp_has_fields prompt
      · exact epr_has_fields _

/-- C10: prompts that mention an enemy or a person (and, in precedence
order, loot or a container; health together with low; stuck) are answered
from the canned template table, tagged with `source` equal to `template`, before any
backend interaction — the returned plan is a fixed constant independent of
the failure counter and of whatever the backend would return. -/
theorem c10_template_decisions (prompt : String) (failures : Nat)
    (backend : Option String) :
    ((containsSub (lowerStr prompt) "enemy" ||
        containsSub (lowerStr prompt) "person") = true →
      (lightweight_get_plan prompt failures backend).1 =
        [("action", Json.str "VATS"), ("duration", Json.num "0.1"),
         ("reason", Json.str "engage_target"),
         ("source", Json.str "template")]) ∧
    ((containsSub (lowerStr prompt) "enemy" ||
        containsSub (lowerStr prompt) "person") = false →
     (containsSub (lowerStr prompt) "loot" ||
        containsSub (lowerStr prompt) "container") = true →
      (lightweight_get_plan prompt failures backend).1 =
        [("action", Json.str "INTERACT"), ("duration", Json.num "0.5"),
         ("reason", Json.str "collect_loot"),
         ("source", Json.str "template")]) ∧
    ((containsSub (lowerStr prompt) "enemy" ||
        containsSub (lowerStr prompt) "person") = false →
     (containsSub (lowerStr prompt) "loot" ||
        containsSub (lowerStr prompt) "container") = false →
     (containsSub (lowerStr prompt) "health" &&
        containsSub (lowerStr prompt) "low") = true →
      (lightweight_get_plan prompt failures backend).1 =
        [("action", Json.str "BACKWARD"), ("duration", Json.num "2.0"),
         ("reason", Json.str "seek_safety"),
         ("source", Json.str "template")]) ∧
    ((containsSub (lowerStr prompt) "enemy" ||
        containsSub (lowerStr prompt) "person") = false →
     (containsSub (lowerStr prompt) "loot" ||
        containsSub (lowerStr prompt) "container") = false →
     (containsSub (lowerStr prompt) "health" &&
        containsSub (lowerStr prompt) "low") = false →
     containsSub (lowerStr prompt) "stuck" = true →
      (lightweight_get_plan prompt failures backend).1 =
        [("action", Json.str "BACKWARD"), ("duration", Json.num "1.0"),
         ("reason", Json.str "unstuck"),
         ("source", Json.str "template")]) := by
  refine ⟨?_, ?_, ?_, ?_⟩
  · intro h1
    simp only [lightweight_get_plan, h1, if_true]
    decide
  · intro h1 h2
    simp only [lightweight_get_plan, h1, h2, Bool.false_eq_true, if_false,
      if_true]
    decide
  · intro h1 h2 h3
    simp only [lightweight_get_plan, h1, h2, h3, Bool.false_eq_true,
      if_false, if_true]
    decide
  · intro h1 h2 h3 h4
    simp only [lightweight_get_plan, h1, h2, h3, h4, Bool.false_eq_true,
      if_false, if_true]
    decide

/-- C10 witness: the prompt `enemy ahead` gets the enemy template whether
the backend would answer (`some`) or fail (`none`), and whatever the
failure counter says. -/
theorem c10_template_decisions_witness :
    (containsSub (lowerStr "enemy ahead") "enemy" ||
      containsSub (lowerStr "enemy ahead") "person") = true ∧
    (lightweight_get_plan "enemy ahead" 0 (some "no json here")).1 =
      [("action", Json.str "VATS"), ("duration", Json.num "0.1"),
       ("reason", Json.str "engage_target"),
       ("source", Json.str "template")] ∧
    (lightweight_get_plan "enemy ahead" 7 none).1 =
      [("action", Json.str "VATS"), ("duration", Json.num "0.1"),
       ("reason", Json.str "engage_target"),
       ("source", Json.str "template")] :=
  ⟨by decide,
   (c10_template_decisions "enemy ahead" 0 (some "no json here")).1
     (by decide),
   (c10_template_decisions "enemy ahead" 7 none).1 (by decide)⟩

theorem length_insertDesc (g : AIGoal) (l : List AIGoal) :
    (insertDesc g l).length = l.length + 1 := by
  induction l with
  | nil => rfl
  | cons h t ih =>
    unfold insertDesc
    split
    · rfl
    · simp [ih]

theorem length_sortDesc (l : List AIGoal) :
    (sortDesc l).length = l.length := by
  induction l with
  | nil => rfl
  | cons a t ih =>
    simp only [sortDesc, List.foldr] at *
    rw [length_insertDesc, ih]
    rfl

theorem head_sortDesc (l : List AIGoal) :
    (sortDesc l).head? =
      l.find? fun g => g.priority = max_priority l := by
  induction l with
  | nil => rfl
  | cons a t ih =>
    cases t with
    | nil => simp [sortDesc, insertDesc, max_priority, List.find?]
    | cons b t2 =>
      have hlen : (sortDesc (b :: t2)).length = t2.length + 1 := by
        rw [length_sortDesc]
        rfl
      cases hS : sortDesc (b :: t2) with
      | nil => simp [hS] at hlen
      | cons h rest =>
        have hfind : (b :: t2).find?
            (fun g => g.priority = max_priority (b :: t2)) = some h := by
          rw [← ih, hS]
          rfl
        have hpr : h.priority = max_priority (b :: t2) := by
          have := List.find?_some hfind
          simpa using this
        have hstep : sortDesc (a :: b :: t2) =
            insertDesc a (sortDesc (b :: t2)) := rfl
        have hmaxdef : max_priority (a :: b :: t2) =
            max a.priority (max_priority (b :: t2)) := rfl
        by_cases hcmp : a.priority ≥ h.priority
        · have hmax : max a.priority (max_priority (b :: t2)) = a.priority := by
            rw [← hpr]
            exact max_eq_left hcmp
          rw [hstep, hS]
          unfold insertDesc
          rw [if_pos hcmp]
          simp only [List.head?_cons]
          simp only [hmaxdef, hmax]
          rw [List.find?_cons_of_pos _ (by simp)]
        · have hlt : a.priority < h.priority := lt_of_not_ge hcmp
          have hmax : max a.priority (max_priority (b :: t2)) =
              max_priority (b :: t2) := by
            rw [← hpr]
            exact max_eq_right (le_of_lt hlt)
          rw [hstep, hS]
          unfold insertDesc
          rw [if_neg hcmp]
          simp only [List.head?_cons]
          simp only [hmaxdef, hmax]
          rw [List.find?_cons_of_neg _ (by simp only [decide_eq_true_eq]; rw [← hpr]; omega),
            hfind]

/-- C7 (amended): goal selection returns the eligible goal of maximal
priority, with ties among equal-priority eligible goals broken by the order
of the `active_goals` list — activation order, the order in which goals were
enabled — rather than registry insertion order; formally, the stable
descending sort-and-take-head of the code equals first-match-of-the-maximum
over the activation-ordered eligible list. -/
theorem c7_selection_activation_order (gm : GoalManager) (ctx : GoalCtx) :
    get_highest_priority_goal gm ctx = activation_order_select gm ctx := by
  unfold get_highest_priority_goal activation_order_select
  exact head_sortDesc _

/-- C7 counterexample: in the default registry, `camp_maintenance` (registry
position 7) and `explore_and_map` (registry position 8) share priority 1.
After enabling `camp_maintenance`, both are eligible; the code selects
`explore_and_map` (enabled first, hence first in `active_goals`), while
registry-insertion-order tie-breaking would select `camp_maintenance`. -/
theorem c7_tie_break_counterexample :
    (eligible_goals (set_goal_enabled init_goal_manager "camp_maintenance"
        true) ⟨false, 0, false⟩).map AIGoal.id =
      ["explore_and_map", "camp_maintenance"] ∧
    (lookupGoal default_goals "camp_maintenance").map AIGoal.priority =
      some 1 ∧
    (lookupGoal default_goals "explore_and_map").map AIGoal.priority =
      some 1 ∧
    (get_highest_priority_goal (set_goal_enabled init_goal_manager
        "camp_maintenance" true) ⟨false, 0, false⟩).map AIGoal.id =
      some "explore_and_map" ∧
    (registry_order_select (set_goal_enabled init_goal_manager
        "camp_maintenance" true) ⟨false, 0, false⟩).map AIGoal.id =
      some "camp_maintenance" := by
  decide

theorem lookupGoal_updateEnabled_isSome (m : List (String × AIGoal))
    (k k2 : String) (b : Bool) :
    (lookupGoal (updateEnabled m k2 b) k).isSome = (lookupGoal m k).isSome := by
  induction m with
  | nil => rfl
  | cons kv rest ih =>
    obtain ⟨k3, v3⟩ := kv
    simp only [updateEnabled]
    split
    · simp only [lookupGoal]
      split <;> rfl
    · simp only [lookupGoal]
      split
      · rfl
      · exact ih

theorem goalKeyPresent_set_goal_enabled (gm : GoalManager)
    (gid : String) (b : Bool) (k : String) :
    goalKeyPresent (set_goal_enabled gm gid b).goals k =
      goalKeyPresent gm.goals k := by
  unfold set_goal_enabled
  split
  · simp only [goalKeyPresent]
    exact lookupGoal_updateEnabled_isSome _ _ _ _
  · rfl

theorem goalKeyPresent_foldl_calls (calls : List (String × Bool)) :
    ∀ (gm : GoalManager) (k : String),
      goalKeyPresent
        ((calls.foldl (fun gm c => set_goal_enabled gm c.1 c.2) gm)).goals k =
      goalKeyPresent gm.goals k := by
  induction calls with
  | nil => intro gm k; rfl
  | cons c rest ih =>
    intro gm k
    simp only [List.foldl_cons]
    rw [ih, goalKeyPresent_set_goal_enabled]

/-- C8 (amended): starting from the default registry, after any sequence of
`set_goal_enabled` calls the decision step always obtains a goal — when no
goal is eligible it substitutes the registry entry of the permanent
exploration goal `explore_and_map` (which the calls can never remove from
the registry), regardless of that goal's enablement flag. -/
theorem c8_decision_goal_total (calls : List (String × Bool))
    (ctx : GoalCtx) :
    (select_decision_goal (apply_goal_calls calls) ctx).isSome = true ∧
    (get_highest_priority_goal (apply_goal_calls calls) ctx = none →
      select_decision_goal (apply_goal_calls calls) ctx =
        lookupGoal (apply_goal_calls calls).goals "explore_and_map") := by
  have hkey : goalKeyPresent (apply_goal_calls calls).goals
      "explore_and_map" = true := by
    unfold apply_goal_calls
    rw [goalKeyPresent_foldl_calls]
    decide
  constructor
  · unfold select_decision_goal
    cases h : get_highest_priority_goal (apply_goal_calls calls) ctx
    · exact hkey
    · rfl
  · intro h
    unfold select_decision_goal
    rw [h]

/-- C8 witness: after disabling the exploration goal, no goal is eligible,
yet the decision step still selects a goal — the exploration registry
entry. -/
theorem c8_decision_goal_total_witness :
    get_highest_priority_goal
      (apply_goal_calls [("explore_and_map", false)]) ⟨false, 0, false⟩ =
      none ∧
    (select_decision_goal (apply_goal_calls [("explore_and_map", false)])
      ⟨false, 0, false⟩).isSome = true ∧
    select_decision_goal (apply_goal_calls [("explore_and_map", false)])
      ⟨false, 0, false⟩ =
      lookupGoal (apply_goal_calls [("explore_and_map", false)]).goals
        "explore_and_map" :=
  ⟨by decide,
   (c8_decision_goal_total [("explore_and_map", false)] ⟨false, 0, false⟩).1,
   (c8_decision_goal_total [("explore_and_map", false)] ⟨false, 0, false⟩).2
     (by decide)⟩

/-- C8 counterexample: the exploration goal can be disabled like any other —
a single `set_goal_enabled` call for `explore_and_map` with `False` flips its flag to
`False` and removes it from the active list, so it is not "always enabled". -/
theorem c8_explore_disabled_counterexample :
    (lookupGoal (apply_goal_calls [("explore_and_map", false)]).goals
      "explore_and_map").map AIGoal.enabled = some false ∧
    (apply_goal_calls [("explore_and_map", false)]).active_goals = [] := by
  decide

theorem dropToOpen_eq_dropWhile (l : List Char) :
    dropToOpen l = l.dropWhile fun c => !(c = lbrace) := by
  induction l with
  | nil => rfl
  | cons c rest ih =>
    unfold dropToOpen
    by_cases h : c = lbrace
    · simp [List.dropWhile, h]
    · simp [List.dropWhile, h, ih]

theorem dropToOpen_head (l : List Char) (c : Char) (rest : List Char)
    (h : dropToOpen l = c :: rest) : c = lbrace := by
  induction l with
  | nil => simp [dropToOpen] at h
  | cons d t ih =>
    unfold dropToOpen at h
    by_cases hd : d = lbrace
    · rw [if_pos hd] at h
      cases h
      exact hd
    · rw [if_neg hd] at h
      exact ih h

theorem dropWhile_append_of_all (p : Char → Bool) (xs ys : List Char)
    (h : ∀ x ∈ xs, p x = true) :
    (xs ++ ys).dropWhile p = ys.dropWhile p := by
  induction xs with
  | nil => rfl
  | cons x t ih =>
    have hx : p x = true := h x (List.mem_cons_self x t)
    simp only [List.cons_append, List.dropWhile_cons, hx, if_true]
    exact ih fun y hy => h y (List.mem_cons_of_mem x hy)

theorem takeWhile_append_of_all (p : Char → Bool) (xs ys : List Char)
    (h : ∀ x ∈ xs, p x = true) :
    (xs ++ ys).takeWhile p = xs ++ ys.takeWhile p := by
  induction xs with
  | nil => rfl
  | cons x t ih =>
    have hx : p x = true := h x (List.mem_cons_self x t)
    simp only [List.cons_append, List.takeWhile_cons, hx, if_true]
    rw [ih fun y hy => h y (List.mem_cons_of_mem x hy)]

theorem dropToOpen_cons_ne (c : Char) (l : List Char) (h : ¬ (c = lbrace)) :
    dropToOpen (c :: l) = dropToOpen l := by
  show (if c = lbrace then c :: l else dropToOpen l) = dropToOpen l
  rw [if_neg h]

theorem dropToOpen_append_no_open (pre l : List Char) (h : lbrace ∉ pre) :
    dropToOpen (pre ++ l) = dropToOpen l := by
  induction pre with
  | nil => rfl
  | cons c t ih =>
    have hc : ¬ (c = lbrace) := fun hc => h (hc ▸ List.mem_cons_self c t)
    simp only [List.cons_append]
    rw [dropToOpen_cons_ne _ _ hc]
    exact ih fun hm => h (List.mem_cons_of_mem c hm)

theorem takeToClose_append_close (mid post : List Char) (h : rbrace ∉ mid) :
    takeToClose (mid ++ rbrace :: post) = some (mid ++ [rbrace]) := by
  induction mid with
  | nil =>
    simp only [List.nil_append]
    unfold takeToClose
    rw [if_pos rfl]
  | cons c t ih =>
    have hc : ¬ (c = rbrace) := fun hc => h (hc ▸ List.mem_cons_self c t)
    simp only [List.cons_append]
    unfold takeToClose
    rw [if_neg hc, ih fun hm => h (List.mem_cons_of_mem c hm)]
    rfl

theorem big_json_substr_eq_spec (t : String) :
    big_json_substr t = spec_first_to_last_substr t := by
  unfold big_json_substr spec_first_to_last_substr
  rw [← dropToOpen_eq_dropWhile]
  cases h : dropToOpen t.toList with
  | nil => rfl
  | cons c rest =>
    have hc : c = lbrace := dropToOpen_head _ _ _ h
    subst hc
    dsimp only
    rw [List.reverse_cons, List.dropWhile_append]
    cases hd : List.dropWhile (fun x => !(x = rbrace)) rest.reverse with
    | nil =>
      have hpl : List.dropWhile (fun x => !(x = rbrace)) [lbrace] = [] := by
        decide
      simp [hd, hpl]
    | cons d ds =>
      simp [hd, List.reverse_append]

theorem dropToOpen_cons_open (l : List Char) :
    dropToOpen (lbrace :: l) = lbrace :: l := by
  show (if lbrace = lbrace then lbrace :: l else dropToOpen l) = lbrace :: l
  rw [if_pos rfl]

/-- C5 counterexample: on the backend response
`pre {"action": "WAIT"} ok}` the extraction step of
`LocalBrain._extract_plan_from_response` does not take the substring from
the first opening brace to the last closing brace: it stops at the first
closing brace.  The plan it extracts is the WAIT plan, while the
first-to-last substring the claim describes is not even valid JSON. -/
theorem c5_local_extract_counterexample :
    local_json_substr "pre \x7b\"action\": \"WAIT\"\x7d ok\x7d" =
      some "\x7b\"action\": \"WAIT\"\x7d" ∧
    spec_first_to_last_substr "pre \x7b\"action\": \"WAIT\"\x7d ok\x7d" =
      some "\x7b\"action\": \"WAIT\"\x7d ok\x7d" ∧
    local_json_substr "pre \x7b\"action\": \"WAIT\"\x7d ok\x7d" ≠
      spec_first_to_last_substr "pre \x7b\"action\": \"WAIT\"\x7d ok\x7d" ∧
    jsonParse "\x7b\"action\": \"WAIT\"\x7d ok\x7d" = none ∧
    jlookup "action"
      (extract_plan_from_response "pre \x7b\"action\": \"WAIT\"\x7d ok\x7d") =
      some (Json.str "WAIT") := by
  decide

/-- C5 (amended): the remote client's greedy extraction does take the
substring from the first opening brace to the last closing brace of the
response, for every response text; the local client's non-greedy extraction
instead stops at the first closing brace.  Both agree on the benign case the
spec describes: leading commentary free of opening braces, a single
brace-delimited object with a brace-free interior, and trailing commentary
free of closing braces — there both extract exactly the object. -/
theorem c5_extraction_first_to_last (t : String) (pre mid post : List Char)
    (h1 : lbrace ∉ pre) (h2 : rbrace ∉ mid) (h3 : rbrace ∉ post) :
    big_json_substr t = spec_first_to_last_substr t ∧
    local_json_substr ⟨pre ++ (lbrace :: (mid ++ (rbrace :: post)))⟩ =
      some ⟨lbrace :: (mid ++ [rbrace])⟩ ∧
    big_json_substr ⟨pre ++ (lbrace :: (mid ++ (rbrace :: post)))⟩ =
      some ⟨lbrace :: (mid ++ [rbrace])⟩ := by
  refine ⟨big_json_substr_eq_spec t, ?_, ?_⟩
  · unfold local_json_substr
    have htl : (String.mk (pre ++ (lbrace :: (mid ++ (rbrace :: post))))).toList =
        pre ++ (lbrace :: (mid ++ (rbrace :: post))) := rfl
    rw [htl, dropToOpen_append_no_open _ _ h1, dropToOpen_cons_open]
    dsimp only
    rw [takeToClose_append_close _ _ h2]
    rfl
  · unfold big_json_substr
    have htl : (String.mk (pre ++ (lbrace :: (mid ++ (rbrace :: post))))).toList =
        pre ++ (lbrace :: (mid ++ (rbrace :: post))) := rfl
    rw [htl, dropToOpen_append_no_open _ _ h1, dropToOpen_cons_open]
    dsimp only
    rw [List.reverse_append, List.reverse_cons, List.append_assoc,
      List.singleton_append]
    rw [dropWhile_append_of_all _ _ _ (by
      intro x hx
      have hxp : x ∈ post := List.mem_reverse.mp hx
      have hne : ¬ (x = rbrace) := fun he => h3 (he ▸ hxp)
      simp [hne])]
    simp only [List.singleton_append, List.dropWhile_cons,
      show (!(rbrace = rbrace)) = false by decide, if_false]
    simp [List.reverse_cons, List.reverse_reverse]

/-- C5 witness: a concrete response with brace-free commentary around a flat
object, on which both extractions return exactly the object text. -/
theorem c5_extraction_first_to_last_witness :
    lbrace ∉ ['o', 'k', ' '] ∧
    rbrace ∉ ['\"', 'a', '\"', ':', ' ', '1'] ∧
    rbrace ∉ [' ', 'e', 'n', 'd'] ∧
    local_json_substr
        ⟨['o', 'k', ' '] ++ (lbrace :: (['\"', 'a', '\"', ':', ' ', '1'] ++
          (rbrace :: [' ', 'e', 'n', 'd'])))⟩ =
      some ⟨lbrace :: (['\"', 'a', '\"', ':', ' ', '1'] ++ [rbrace])⟩ ∧
    big_json_substr
        ⟨['o', 'k', ' '] ++ (lbrace :: (['\"', 'a', '\"', ':', ' ', '1'] ++
          (rbrace :: [' ', 'e', 'n', 'd'])))⟩ =
      some ⟨lbrace :: (['\"', 'a', '\"', ':', ' ', '1'] ++ [rbrace])⟩ :=
  ⟨by decide, by decide, by decide,
   (c5_extraction_first_to_last "x" ['o', 'k', ' ']
     ['\"', 'a', '\"', ':', ' ', '1'] [' ', 'e', 'n', 'd'] (by decide)
     (by decide) (by decide)).2.1,
   (c5_extraction_first_to_last "x" ['o', 'k', ' ']
     ['\"', 'a', '\"', ':', ' ', '1'] [' ', 'e', 'n', 'd'] (by decide)
     (by decide) (by decide)).2.2⟩

theorem safeChar_ge32 (c : Char) (h : safeChar c = true) : 32 ≤ c.toNat := by
  simp [safeChar] at h
  exact h.1

theorem safeChar_ne_rbrace (c : Char) (h : safeChar c = true) :
    ¬ (c = rbrace) := by
  simp [safeChar] at h
  exact h.2

theorem escapeChar_eq_self (c : Char) (h32 : 32 ≤ c.toNat)
    (hq : ¬ (c = '"')) (hb : ¬ (c = '\\')) : escapeChar c = [c] := by
  unfold escapeChar
  rw [if_neg hq, if_neg hb,
    if_neg (fun hc => by subst hc; exact absurd h32 (by decide)),
    if_neg (fun hc => by subst hc; exact absurd h32 (by decide)),
    if_neg (fun hc => by subst hc; exact absurd h32 (by decide)),
    if_neg (fun hc => by subst hc; exact absurd h32 (by decide)),
    if_neg (fun hc => by subst hc; exact absurd h32 (by decide)),
    if_neg (by omega)]

theorem parseStringBody_escList (cs : List Char) (rest : List Char)
    (h : ∀ c ∈ cs, 32 ≤ c.toNat) :
    parseStringBody (escList cs ++ '"' :: rest) = some (cs, rest) := by
  induction cs with
  | nil =>
    show parseStringBody ('"' :: rest) = some ([], rest)
    rw [parseStringBody.eq_def]
    dsimp only
    rw [if_pos rfl]
  | cons c cs ih =>
    have h32 : 32 ≤ c.toNat := h c (List.mem_cons_self c cs)
    have ihr := ih fun x hx => h x (List.mem_cons_of_mem c hx)
    have hesc : escList (c :: cs) ++ '"' :: rest =
        escapeChar c ++ (escList cs ++ '"' :: rest) := by
      simp [escList]
    by_cases hq : c = '"'
    · subst hq
      rw [hesc, show escapeChar '"' = ['\\', '"'] from by decide]
      show parseStringBody ('\\' :: '"' :: (escList cs ++ '"' :: rest)) = _
      rw [parseStringBody.eq_def]
      simp +decide [escDecode, ihr]
    · by_cases hb : c = '\\'
      · subst hb
        rw [hesc, show escapeChar '\\' = ['\\', '\\'] from by decide]
        show parseStringBody ('\\' :: '\\' :: (escList cs ++ '"' :: rest)) = _
        rw [parseStringBody.eq_def]
        simp +decide [escDecode, ihr]
      · rw [hesc, escapeChar_eq_self c h32 hq hb]
        show parseStringBody (c :: (escList cs ++ '"' :: rest)) = _
        rw [parseStringBody.eq_def]
        dsimp only
        rw [if_neg hq, if_neg hb, if_neg (by omega), ihr]
        rfl

theorem takeWhile_cons_false (p : Char → Bool) (y : Char) (ys : List Char)
    (h : p y = false) : (y :: ys).takeWhile p = [] := by
  simp [List.takeWhile_cons, h]

theorem dropWhile_cons_false (p : Char → Bool) (y : Char) (ys : List Char)
    (h : p y = false) : (y :: ys).dropWhile p = y :: ys := by
  simp [List.dropWhile_cons, h]

theorem skipWs_cons_not_ws (c : Char) (l : List Char)
    (h : isWsChar c = false) : skipWs (c :: l) = c :: l := by
  simp [skipWs, List.dropWhile_cons, h]

theorem skipWs_space (l : List Char) : skipWs (' ' :: l) = skipWs l := by
  simp [skipWs, List.dropWhile_cons,
    show isWsChar ' ' = true from by decide]

theorem isNumChar_of_first (c : Char) (h : (c = '-' || c.isDigit) = true) :
    isNumChar c = true := by
  simp only [Bool.or_eq_true, decide_eq_true_eq] at h
  rcases h with h | h
  · subst h
    decide
  · simp [isNumChar, h]

theorem first_num_ne_quote (c : Char) (h : (c = '-' || c.isDigit) = true) :
    ¬ (c = '"') := by
  intro he
  subst he
  exact absurd h (by decide)

theorem parseVal_dumpVal (v : Json) (rest : List Char)
    (hv : safeValB v = true)
    (hrest : ∀ c, rest.head? = some c → isNumChar c = false) :
    parseVal (dumpVal v ++ rest) = some (v, rest) := by
  have htake : rest.takeWhile isNumChar = [] := by
    cases rest with
    | nil => rfl
    | cons r rs => exact takeWhile_cons_false _ _ _ (hrest r rfl)
  have hdrop : rest.dropWhile isNumChar = rest := by
    cases rest with
    | nil => rfl
    | cons r rs => exact dropWhile_cons_false _ _ _ (hrest r rfl)
  cases v with
  | null =>
    show parseVal ('n' :: 'u' :: 'l' :: 'l' :: rest) = _
    rw [parseVal.eq_def]
    dsimp only
    simp +decide [startsWithL]
  | bool b =>
    cases b
    · show parseVal ('f' :: 'a' :: 'l' :: 's' :: 'e' :: rest) = _
      rw [parseVal.eq_def]
      dsimp only
      simp +decide [startsWithL]
    · show parseVal ('t' :: 'r' :: 'u' :: 'e' :: rest) = _
      rw [parseVal.eq_def]
      dsimp only
      simp +decide [startsWithL]
  | str s =>
    have hsafe : ∀ c ∈ s.toList, 32 ≤ c.toNat := by
      intro c hc
      have hall : ∀ c ∈ s.toList, safeChar c = true := by
        simpa [safeValB, safeStrB, List.all_eq_true] using hv
      exact safeChar_ge32 c (hall c hc)
    have hsh : dumpVal (Json.str s) ++ rest =
        '"' :: (escList s.toList ++ '"' :: rest) := by
      simp [dumpVal, dumpString, List.append_assoc]
    rw [hsh]
    rw [parseVal.eq_def]
    dsimp only
    rw [if_pos rfl, parseStringBody_escList _ _ hsafe]
    rfl
  | num s =>
    have hwf : wfNumB s = true := hv
    unfold wfNumB at hwf
    cases hl : s.toList with
    | nil => rw [hl] at hwf; simp at hwf
    | cons c cs =>
      rw [hl] at hwf
      simp only [Bool.and_eq_true] at hwf
      obtain ⟨hfirst, hall⟩ := hwf
      have hallnum : ∀ x ∈ c :: cs, isNumChar x = true := by
        intro x hx
        exact List.all_eq_true.mp hall x hx
      have hsh : dumpVal (Json.num s) ++ rest = c :: (cs ++ rest) := by
        show s.toList ++ rest = c :: (cs ++ rest)
        rw [hl]
        rfl
      rw [hsh]
      rw [parseVal.eq_def]
      dsimp only
      rw [if_neg (first_num_ne_quote c hfirst), if_pos hfirst]
      have htw : (c :: (cs ++ rest)).takeWhile isNumChar = c :: cs := by
        rw [show (c :: (cs ++ rest)) = (c :: cs) ++ rest from rfl]
        rw [takeWhile_append_of_all _ _ _ hallnum, htake, List.append_nil]
      have hdw : (c :: (cs ++ rest)).dropWhile isNumChar = rest := by
        rw [show (c :: (cs ++ rest)) = (c :: cs) ++ rest from rfl]
        rw [dropWhile_append_of_all _ _ _ hallnum, hdrop]
      rw [htw, hdw, ← hl]
      rfl

theorem first_num_not_ws (c : Char) (h : (c = '-' || c.isDigit) = true) :
    isWsChar c = false := by
  simp only [Bool.or_eq_true, decide_eq_true_eq] at h
  by_cases h1 : c = ' '
  · subst h1
    exact absurd h (by decide)
  · by_cases h2 : c = '\t'
    · subst h2
      exact absurd h (by decide)
    · by_cases h3 : c = '\n'
      · subst h3
        exact absurd h (by decide)
      · by_cases h4 : c = '\r'
        · subst h4
          exact absurd h (by decide)
        · simp [isWsChar, h1, h2, h3, h4]

theorem skipWs_dumpVal (v : Json) (hv : safeValB v = true) (X : List Char) :
    skipWs (dumpVal v ++ X) = dumpVal v ++ X := by
  cases v with
  | null => exact skipWs_cons_not_ws _ _ (by decide)
  | bool b => cases b <;> exact skipWs_cons_not_ws _ _ (by decide)
  | str s => exact skipWs_cons_not_ws _ _ (by decide)
  | num s =>
    have hwf : wfNumB s = true := hv
    unfold wfNumB at hwf
    cases hl : s.toList with
    | nil => rw [hl] at hwf; simp at hwf
    | cons c cs =>
      rw [hl] at hwf
      simp only [Bool.and_eq_true] at hwf
      show skipWs (s.toList ++ X) = s.toList ++ X
      rw [hl]
      exact skipWs_cons_not_ws _ _ (first_num_not_ws c hwf.1)

theorem skipWs_dumpMembers (o : JsonObj) (hne : o ≠ []) (X : List Char) :
    skipWs (dumpMembers o ++ X) = dumpMembers o ++ X := by
  cases o with
  | nil => exact absurd rfl hne
  | cons kv o' =>
    obtain ⟨k, v⟩ := kv
    cases o' <;> exact skipWs_cons_not_ws _ _ (by decide)

theorem parseMembers_dumpMembers (o : JsonObj) :
    ∀ (fuel : Nat) (rest : List Char), safePlanB o = true → o ≠ [] →
      o.length ≤ fuel →
      parseMembers fuel (dumpMembers o ++ rbrace :: rest) = some (o, rest) := by
  induction o with
  | nil => intro fuel rest _ hne _; exact absurd rfl hne
  | cons kv o' ih =>
    intro fuel rest hsafe hne hfuel
    obtain ⟨k, v⟩ := kv
    have hsk : (safeStrB k && safeValB v) = true ∧ safePlanB o' = true := by
      simpa [safePlanB] using hsafe
    have hkv : safeStrB k = true ∧ safeValB v = true := by
      simpa [Bool.and_eq_true] using hsk.1
    have hk : safeStrB k = true := hkv.1
    have hv : safeValB v = true := hkv.2
    have ho' : safePlanB o' = true := hsk.2
    have hk32 : ∀ c ∈ k.toList, 32 ≤ c.toNat := fun c hc =>
      safeChar_ge32 c (List.all_eq_true.mp hk c hc)
    cases fuel with
    | zero => simp at hfuel
    | succ f =>
      cases o' with
      | nil =>
        have hshape : dumpMembers [(k, v)] ++ rbrace :: rest =
            '"' :: (escList k.toList ++ '"' ::
              (':' :: (' ' :: (dumpVal v ++ rbrace :: rest)))) := by
          simp [dumpMembers, dumpString, List.append_assoc]
        rw [hshape, parseMembers.eq_def]
        dsimp only
        rw [if_pos rfl, parseStringBody_escList _ _ hk32]
        dsimp only
        rw [skipWs_cons_not_ws ':' _ (by decide)]
        dsimp only
        rw [if_pos rfl]
        rw [skipWs_space, skipWs_dumpVal v hv]
        rw [parseVal_dumpVal v _ hv (fun c hc => by
          simp only [List.head?_cons, Option.some.injEq] at hc
          subst hc
          decide)]
        dsimp only
        rw [skipWs_cons_not_ws rbrace _ (by decide)]
        dsimp only
        rw [if_neg (by decide), if_pos rfl]
        rfl
      | cons kv2 o'' =>
        have hshape : dumpMembers ((k, v) :: kv2 :: o'') ++ rbrace :: rest =
            '"' :: (escList k.toList ++ '"' ::
              (':' :: (' ' :: (dumpVal v ++ ',' ::
                (' ' :: (dumpMembers (kv2 :: o'') ++ rbrace :: rest)))))) := by
          simp [dumpMembers, dumpString, List.append_assoc]
        rw [hshape, parseMembers.eq_def]
        dsimp only
        rw [if_pos rfl, parseStringBody_escList _ _ hk32]
        dsimp only
        rw [skipWs_cons_not_ws ':' _ (by decide)]
        dsimp only
        rw [if_pos rfl]
        rw [skipWs_space, skipWs_dumpVal v hv]
        rw [parseVal_dumpVal v _ hv (fun c hc => by
          simp only [List.head?_cons, Option.some.injEq] at hc
          subst hc
          decide)]
        dsimp only
        rw [skipWs_cons_not_ws ',' _ (by decide)]
        dsimp only
        rw [if_pos rfl]
        rw [skipWs_space, skipWs_dumpMembers (kv2 :: o'') (List.cons_ne_nil _ _)]
        rw [ih f rest ho' (List.cons_ne_nil _ _) (by
          simp only [List.length_cons] at hfuel ⊢
          omega)]
        rfl

theorem length_dumpMembers (o : JsonObj) :
    o.length ≤ (dumpMembers o).length := by
  induction o with
  | nil => simp [dumpMembers]
  | cons kv o' ih =>
    obtain ⟨k, v⟩ := kv
    cases o' with
    | nil =>
      simp [dumpMembers, dumpString]
    | cons kv2 o'' =>
      simp only [dumpMembers, dumpString, List.length_cons,
        List.length_append] at *
      omega

theorem jsonParseRaw_dumpObjStr (o : JsonObj) (hsafe : safePlanB o = true)
    (hne : o ≠ []) : jsonParseRaw (dumpObjStr o) = some o := by
  cases o with
  | nil => exact absurd rfl hne
  | cons kv o' =>
    obtain ⟨k, v⟩ := kv
    obtain ⟨Y, hY⟩ : ∃ Y, dumpMembers ((k, v) :: o') = '"' :: Y := by
      cases o' <;> exact ⟨_, rfl⟩
    unfold jsonParseRaw
    have htl : (dumpObjStr ((k, v) :: o')).toList =
        lbrace :: (dumpMembers ((k, v) :: o') ++ [rbrace]) := rfl
    rw [htl, skipWs_cons_not_ws lbrace _ (by decide)]
    dsimp only
    rw [if_pos rfl]
    rw [show (([rbrace] : List Char)) = rbrace :: [] from rfl,
      skipWs_dumpMembers _ (List.cons_ne_nil _ _)]
    rw [hY]
    dsimp only [List.cons_append]
    rw [if_neg (by decide)]
    rw [← List.cons_append, ← hY]
    rw [parseMembers_dumpMembers _ _ _ hsafe (List.cons_ne_nil _ _) (by
      have := length_dumpMembers ((k, v) :: o')
      simp only [List.length_append, List.length_cons] at this ⊢
      omega)]
    rfl

theorem jlookup_ne_of_none (o : JsonObj) (k : String)
    (h : jlookup k o = none) : ∀ kv ∈ o, ¬ (kv.1 = k) := by
  induction o with
  | nil => intro kv hkv; cases hkv
  | cons kv2 rest ih =>
    intro kv hkv
    unfold jlookup at h
    by_cases h2 : kv2.1 = k
    · rw [if_pos h2] at h
      cases h
    · rw [if_neg h2] at h
      rcases List.mem_cons.mp hkv with he | hm
      · subst he
        exact h2
      · exact ih h kv hm

theorem jlookup_append_none (a b : JsonObj) (k : String)
    (ha : jlookup k a = none) (hb : jlookup k b = none) :
    jlookup k (a ++ b) = none := by
  induction a with
  | nil => exact hb
  | cons kv rest ih =>
    by_cases h2 : kv.1 = k
    · exfalso
      unfold jlookup at ha
      rw [if_pos h2] at ha
      cases ha
    · have ha2 : jlookup k rest = none := by
        unfold jlookup at ha
        rwa [if_neg h2] at ha
      show jlookup k (kv :: (rest ++ b)) = none
      unfold jlookup
      rw [if_neg h2]
      exact ih ha2

theorem insertKV_append_of_absent (o : JsonObj) (k : String) (v : Json)
    (h : jlookup k o = none) : insertKV o k v = o ++ [(k, v)] := by
  induction o with
  | nil => rfl
  | cons kv rest ih =>
    have h2 : ¬ (kv.1 = k) := jlookup_ne_of_none _ _ h kv
      (List.mem_cons_self _ _)
    have hrest : jlookup k rest = none := by
      unfold jlookup at h
      rwa [if_neg h2] at h
    obtain ⟨k2, v2⟩ := kv
    show insertKV ((k2, v2) :: rest) k v = (k2, v2) :: (rest ++ [(k, v)])
    unfold insertKV
    rw [if_neg h2, ih hrest]

theorem canon_foldl_append (o : JsonObj) :
    ∀ (acc : JsonObj), nodupKeysB o = true →
      (∀ kv ∈ o, jlookup kv.1 acc = none) →
      o.foldl (fun a kv => insertKV a kv.1 kv.2) acc = acc ++ o := by
  induction o with
  | nil => intro acc _ _; simp
  | cons kv rest ih =>
    intro acc hnodup habsent
    obtain ⟨k, v⟩ := kv
    have hnd : (jlookup k rest).isNone = true ∧ nodupKeysB rest = true := by
      simpa [nodupKeysB] using hnodup
    have hkrest : jlookup k rest = none := by
      cases h : jlookup k rest
      · rfl
      · rw [h] at hnd
        cases hnd.1
    simp only [List.foldl_cons]
    rw [insertKV_append_of_absent _ _ _ (habsent (k, v)
      (List.mem_cons_self _ _))]
    rw [ih (acc ++ [(k, v)]) hnd.2 (by
      intro kv2 hm
      apply jlookup_append_none
      · exact habsent kv2 (List.mem_cons_of_mem _ hm)
      · show jlookup kv2.1 [(k, v)] = none
        unfold jlookup
        rw [if_neg (fun he =>
          (jlookup_ne_of_none _ _ hkrest kv2 hm) he.symm)]
        rfl)]
    simp

theorem canonObj_of_nodup (o : JsonObj) (h : nodupKeysB o = true) :
    canonObj o = o := by
  unfold canonObj
  rw [canon_foldl_append o [] h (fun kv _ => rfl)]
  rfl

theorem jsonParse_dumpObjStr (o : JsonObj) (hsafe : safePlanB o = true)
    (hnodup : nodupKeysB o = true) (hne : o ≠ []) :
    jsonParse (dumpObjStr o) = some o := by
  unfold jsonParse
  rw [jsonParseRaw_dumpObjStr o hsafe hne]
  simp [canonObj_of_nodup o hnodup]

theorem rbrace_not_mem_escapeChar (c : Char) (hc : safeChar c = true) :
    rbrace ∉ escapeChar c := by
  have h32 : 32 ≤ c.toNat := safeChar_ge32 c hc
  have hne : ¬ (c = rbrace) := safeChar_ne_rbrace c hc
  by_cases hq : c = '"'
  · subst hq
    decide
  · by_cases hb : c = '\\'
    · subst hb
      decide
    · rw [escapeChar_eq_self c h32 hq hb]
      intro hm
      rcases List.mem_singleton.mp hm with he
      exact hne he.symm

theorem rbrace_not_mem_escList (cs : List Char)
    (h : ∀ c ∈ cs, safeChar c = true) : rbrace ∉ escList cs := by
  induction cs with
  | nil => simp [escList]
  | cons c rest ih =>
    have : escList (c :: rest) = escapeChar c ++ escList rest := by
      simp [escList]
    rw [this]
    intro hm
    rcases List.mem_append.mp hm with hm | hm
    · exact rbrace_not_mem_escapeChar c (h c (List.mem_cons_self _ _)) hm
    · exact ih (fun x hx => h x (List.mem_cons_of_mem _ hx)) hm

theorem rbrace_not_mem_dumpString (s : String) (h : safeStrB s = true) :
    rbrace ∉ dumpString s := by
  unfold dumpString
  intro hm
  rcases List.mem_cons.mp hm with he | hm
  · exact absurd he (by decide)
  · rcases List.mem_append.mp hm with hm | hm
    · exact rbrace_not_mem_escList s.toList (List.all_eq_true.mp h) hm
    · rcases List.mem_singleton.mp hm with he
      exact absurd he (by decide)

theorem rbrace_not_mem_dumpVal (v : Json) (h : safeValB v = true) :
    rbrace ∉ dumpVal v := by
  cases v with
  | null => decide
  | bool b => cases b <;> decide
  | str s => exact rbrace_not_mem_dumpString s h
  | num s =>
    have hall : ∀ c ∈ s.toList, isNumChar c = true := by
      have hwf : wfNumB s = true := h
      unfold wfNumB at hwf
      intro x hx
      cases hl : s.toList with
      | nil =>
        rw [hl] at hx
        cases hx
      | cons c cs =>
        rw [hl] at hwf hx
        simp only [Bool.and_eq_true] at hwf
        exact List.all_eq_true.mp hwf.2 x hx
    intro hm
    have := hall rbrace hm
    exact absurd this (by decide)

theorem rbrace_not_mem_dumpMembers (o : JsonObj) (h : safePlanB o = true) :
    rbrace ∉ dumpMembers o := by
  induction o with
  | nil => simp [dumpMembers]
  | cons kv o' ih =>
    obtain ⟨k, v⟩ := kv
    have hsk : (safeStrB k && safeValB v) = true ∧ safePlanB o' = true := by
      simpa [safePlanB] using h
    have hkv : safeStrB k = true ∧ safeValB v = true := by
      simpa [Bool.and_eq_true] using hsk.1
    cases o' with
    | nil =>
      show rbrace ∉ dumpString k ++ ':' :: ' ' :: dumpVal v
      intro hm
      rcases List.mem_append.mp hm with hm | hm
      · exact rbrace_not_mem_dumpString k hkv.1 hm
      · rcases List.mem_cons.mp hm with he | hm
        · exact absurd he (by decide)
        · rcases List.mem_cons.mp hm with he | hm
          · exact absurd he (by decide)
          · exact rbrace_not_mem_dumpVal v hkv.2 hm
    | cons kv2 o'' =>
      show rbrace ∉ dumpString k ++ ':' :: ' ' :: dumpVal v ++ ',' :: ' ' ::
        dumpMembers (kv2 :: o'')
      intro hm
      rcases List.mem_append.mp hm with hm | hm
      · rcases List.mem_append.mp hm with hm | hm
        · exact rbrace_not_mem_dumpString k hkv.1 hm
        · rcases List.mem_cons.mp hm with he | hm
          · exact absurd he (by decide)
          · rcases List.mem_cons.mp hm with he | hm
            · exact absurd he (by decide)
            · exact rbrace_not_mem_dumpVal v hkv.2 hm
      · rcases List.mem_cons.mp hm with he | hm
        · exact absurd he (by decide)
        · rcases List.mem_cons.mp hm with he | hm
          · exact absurd he (by decide)
          · exact ih hsk.2 hm

theorem local_json_substr_dumpObjStr (o : JsonObj)
    (hsafe : safePlanB o = true) :
    local_json_substr (dumpObjStr o) = some (dumpObjStr o) := by
  unfold local_json_substr
  have htl : (dumpObjStr o).toList =
      lbrace :: (dumpMembers o ++ [rbrace]) := rfl
  rw [htl, dropToOpen_cons_open]
  dsimp only
  rw [show (dumpMembers o ++ [rbrace] : List Char) =
      dumpMembers o ++ rbrace :: [] from rfl,
    takeToClose_append_close _ _ (rbrace_not_mem_dumpMembers o hsafe)]
  rfl

theorem extract_plan_dumpObjStr (o : JsonObj) (hsafe : safePlanB o = true)
    (hnodup : nodupKeysB o = true)
    (haction : (jlookup "action" o).isSome = true) (hne : o ≠ []) :
    extract_plan_from_response (dumpObjStr o) = apply_plan_defaults o := by
  unfold extract_plan_from_response
  rw [local_json_substr_dumpObjStr o hsafe]
  dsimp only
  rw [jsonParse_dumpObjStr o hsafe hnodup hne]
  dsimp only
  rw [if_pos haction]

theorem safePlanB_insertKV (o : JsonObj) (k : String) (v : Json)
    (ho : safePlanB o = true) (hk : safeStrB k = true)
    (hv : safeValB v = true) : safePlanB (insertKV o k v) = true := by
  induction o with
  | nil => simp [insertKV, safePlanB, hk, hv]
  | cons kv2 rest ih =>
    obtain ⟨k2, v2⟩ := kv2
    have h2 : (safeStrB k2 && safeValB v2) = true ∧ safePlanB rest = true := by
      simpa [safePlanB] using ho
    have hks : safeStrB k2 = true ∧ safeValB v2 = true := by
      simpa [Bool.and_eq_true] using h2.1
    unfold insertKV
    split
    · have hrest := h2.2
      simp [safePlanB] at hrest ⊢
      exact ⟨⟨hks.1, hv⟩, hrest⟩
    · have := ih h2.2
      simp [safePlanB] at this ⊢
      exact ⟨⟨hks.1, hks.2⟩, this⟩

theorem safePlanB_with_default (o : JsonObj) (k : String) (v : Json)
    (ho : safePlanB o = true) (hk : safeStrB k = true)
    (hv : safeValB v = true) : safePlanB (with_default o k v) = true := by
  unfold with_default
  split
  · exact ho
  · exact safePlanB_insertKV o k v ho hk hv

theorem safePlanB_apply_defaults (o : JsonObj) (ho : safePlanB o = true) :
    safePlanB (apply_plan_defaults o) = true := by
  unfold apply_plan_defaults
  apply safePlanB_with_default
  · exact safePlanB_with_default o _ _ ho (by decide) (by decide)
  · decide
  · decide

theorem nodupKeysB_insertKV (o : JsonObj) (k : String) (v : Json)
    (hn : nodupKeysB o = true) (habs : jlookup k o = none) :
    nodupKeysB (insertKV o k v) = true := by
  induction o with
  | nil => simp [insertKV, nodupKeysB, jlookup]
  | cons kv2 rest ih =>
    obtain ⟨k2, v2⟩ := kv2
    have hnd : (jlookup k2 rest).isNone = true ∧ nodupKeysB rest = true := by
      simpa [nodupKeysB] using hn
    have hk2 : ¬ (k2 = k) := by
      intro he
      unfold jlookup at habs
      rw [if_pos he] at habs
      cases habs
    have habs2 : jlookup k rest = none := by
      unfold jlookup at habs
      rwa [if_neg hk2] at habs
    unfold insertKV
    rw [if_neg hk2]
    have h1 : jlookup k2 (insertKV rest k v) = none := by
      rw [jlookup_insertKV_ne rest k2 k v hk2]
      exact Option.isNone_iff_eq_none.mp hnd.1
    show ((jlookup k2 (insertKV rest k v)).isNone &&
      nodupKeysB (insertKV rest k v)) = true
    rw [h1, ih hnd.2 habs2]
    rfl

theorem nodupKeysB_with_default (o : JsonObj) (k : String) (v : Json)
    (hn : nodupKeysB o = true) : nodupKeysB (with_default o k v) = true := by
  unfold with_default
  split
  · exact hn
  · rename_i h
    apply nodupKeysB_insertKV o k v hn
    cases hjk : jlookup k o
    · rfl
    · exact absurd (by simp [hjk]) h

theorem nodupKeysB_apply_defaults (o : JsonObj)
    (hn : nodupKeysB o = true) : nodupKeysB (apply_plan_defaults o) = true := by
  unfold apply_plan_defaults
  exact nodupKeysB_with_default _ _ _ (nodupKeysB_with_default _ _ _ hn)

theorem ne_nil_of_jlookup_isSome (o : JsonObj) (k : String)
    (h : (jlookup k o).isSome = true) : o ≠ [] := by
  intro he
  subst he
  simp [jlookup] at h

/-- C6 (amended): the defaulting step fills a missing `duration` with 1.0
and a missing `reason` with `AI decision` and leaves `action` untouched;
and for every plan with an `action` field whose keys are distinct and whose
keys and primitive values are safe — printable characters with no closing
brace, which the counterexample shows is necessary — re-serialising the
defaulted plan and extracting it again returns the defaulted plan
unchanged (the defaulting step is idempotent on it). -/
theorem c6_defaulting_roundtrip (plan : JsonObj)
    (hsafe : safePlanB plan = true) (hnodup : nodupKeysB plan = true)
    (haction : (jlookup "action" plan).isSome = true) :
    (jlookup "duration" plan = none →
      jlookup "duration" (apply_plan_defaults plan) =
        some (Json.num "1.0")) ∧
    (jlookup "reason" plan = none →
      jlookup "reason" (apply_plan_defaults plan) =
        some (Json.str "AI decision")) ∧
    jlookup "action" (apply_plan_defaults plan) = jlookup "action" plan ∧
    extract_plan_from_response (dumpObjStr (apply_plan_defaults plan)) =
      apply_plan_defaults plan := by
  refine ⟨apply_defaults_duration_default plan,
    apply_defaults_reason_default plan, apply_defaults_action plan, ?_⟩
  have haction2 : (jlookup "action" (apply_plan_defaults plan)).isSome =
      true := by
    rw [apply_defaults_action plan]
    exact haction
  rw [extract_plan_dumpObjStr _ (safePlanB_apply_defaults plan hsafe)
    (nodupKeysB_apply_defaults plan hnodup) haction2
    (ne_nil_of_jlookup_isSome _ _ haction2)]
  exact apply_defaults_of_present _ (apply_defaults_duration_some plan)
    (apply_defaults_reason_some plan)

/-- C6 witness: a concrete one-field plan; the defaults are filled in and
the serialise/re-extract cycle returns it unchanged. -/
theorem c6_defaulting_roundtrip_witness :
    safePlanB [("action", Json.str "WAIT")] = true ∧
    nodupKeysB [("action", Json.str "WAIT")] = true ∧
    (jlookup "action" [("action", Json.str "WAIT")]).isSome = true ∧
    jlookup "duration" (apply_plan_defaults [("action", Json.str "WAIT")]) =
      some (Json.num "1.0") ∧
    extract_plan_from_response
        (dumpObjStr (apply_plan_defaults [("action", Json.str "WAIT")])) =
      apply_plan_defaults [("action", Json.str "WAIT")] :=
  ⟨by decide, by decide, by decide,
   (c6_defaulting_roundtrip [("action", Json.str "WAIT")] (by decide)
     (by decide) (by decide)).1 (by decide),
   (c6_defaulting_roundtrip [("action", Json.str "WAIT")] (by decide)
     (by decide) (by decide)).2.2.2⟩

/-- C6 counterexample: the backend response containing the escape
`}` (a closing brace inside the `action` string) is extracted to the
plan with action `a` + closing brace + `b` and the defaults filled in; but
re-serialising that defaulted plan and extracting it again does not
preserve the fields — the literal brace in the serialised string truncates
the brace match, the JSON parse fails, and the keyword fallback returns the
default FORWARD plan instead. -/
theorem c6_roundtrip_counterexample :
    extract_plan_from_response "\x7b\"action\": \"a\\u007db\"\x7d" =
      [("action", Json.str "a\x7db"), ("duration", Json.num "1.0"),
       ("reason", Json.str "AI decision")] ∧
    jlookup "action"
        (extract_plan_from_response "\x7b\"action\": \"a\\u007db\"\x7d") =
      some (Json.str "a\x7db") ∧
    jlookup "action"
        (extract_plan_from_response (dumpObjStr
          (extract_plan_from_response "\x7b\"action\": \"a\\u007db\"\x7d"))) =
      some (Json.str "FORWARD") ∧
    some (Json.str "FORWARD") ≠ some (Json.str "a\x7db") := by
  decide
